import Mathlib

/-!
Verification of the batch-cost calculator (`costos_lote.py`).

The cost layer of the program is embedded shallowly: pandas `DataFrame`s
become lists of typed rows, Python floats become exact rationals (`ℚ`),
and each assignment of the computation block (source lines 202-227) becomes
a Lean definition with the same name.
-/

namespace Costos

/-- A row of the ingredient or auxiliary table
(`Descripción`, `Cantidad`, `Unidad`, `Costo unitario (ARS $)`). -/
structure LineRow where
  descripcion : String
  cantidad : ℚ
  unidad : String
  costo : ℚ
  deriving DecidableEq, Repr

/-- A row of the packaging table (`Descripción`, `Unidades`, `Costo unitario (ARS $)`). -/
structure PackRow where
  descripcion : String
  unidades : ℚ
  costo : ℚ
  deriving DecidableEq, Repr

/-- The full editable state of the app: the scalar inputs of the header and
section 4 widgets, plus the three editable tables. -/
structure Model where
  titulo : String
  vol_batch : ℚ
  bottle_ml : ℚ
  loss_pct : ℚ
  energy_cost : ℚ
  lab_hours : ℚ
  lab_rate : ℚ
  flete : ℚ
  ind_pct : ℚ
  ing : List LineRow
  pack : List PackRow
  aux : List LineRow
  deriving DecidableEq, Repr

/-- `default_ingredients()`: five preset rows plus blank rows padded to 10. -/
def default_ingredients : List LineRow :=
  [⟨"Agua", 25, "L", 2⟩,
   ⟨"Malta Pilsen", 4.5, "kg", 550⟩,
   ⟨"Malta caramelo", 0.3, "kg", 820⟩,
   ⟨"Lúpulo", 0.05, "kg", 16000⟩,
   ⟨"Levadura ale", 0.011, "kg", 12500⟩] ++
  List.replicate 5 ⟨"", 0, "kg", 0⟩

/-- `default_packaging()`. -/
def default_packaging : List PackRow :=
  [⟨"Botella 330 ml", 61, 80⟩,
   ⟨"Chapa", 61, 15⟩,
   ⟨"Etiqueta", 61, 20⟩,
   ⟨"Cartón 6 pack", 11, 300⟩]

/-- `default_aux()`. -/
def default_aux : List LineRow :=
  [⟨"CO₂", 0.6, "kg", 700⟩,
   ⟨"Irish moss", 5, "g", 80⟩]

/-- The state with every widget at its default value and no table edits. -/
def defaultModel : Model :=
  ⟨"Lote 20 L", 20, 330, 8, 300, 6, 4000, 1000, 10,
   default_ingredients, default_packaging, default_aux⟩

/-- `ing_cost = (ing_df["Cantidad"] * ing_df["Costo unitario (ARS $)"]).sum()`. -/
def ing_cost (m : Model) : ℚ := (m.ing.map (fun r => r.cantidad * r.costo)).sum

/-- `pack_cost = (pack_df["Unidades"] * pack_df["Costo unitario (ARS $)"]).sum()`. -/
def pack_cost (m : Model) : ℚ := (m.pack.map (fun r => r.unidades * r.costo)).sum

/-- `aux_cost = (aux_df["Cantidad"] * aux_df["Costo unitario (ARS $)"]).sum()`. -/
def aux_cost (m : Model) : ℚ := (m.aux.map (fun r => r.cantidad * r.costo)).sum

/-- `lab_cost = lab_hours * lab_rate`. -/
def lab_cost (m : Model) : ℚ := m.lab_hours * m.lab_rate

/-- `total_var = ing_cost + pack_cost + aux_cost + energy_cost + lab_cost + flete`. -/
def total_var (m : Model) : ℚ :=
  ing_cost m + pack_cost m + aux_cost m + m.energy_cost + lab_cost m + m.flete

/-- `ind_cost = total_var * ind_pct / 100`. -/
def ind_cost (m : Model) : ℚ := total_var m * m.ind_pct / 100

/-- `total_lot = total_var + ind_cost`. -/
def total_lot (m : Model) : ℚ := total_var m + ind_cost m

/-- `var_no_pack = total_var - pack_cost`. -/
def var_no_pack (m : Model) : ℚ := total_var m - pack_cost m

/-- `ind_no_pack = var_no_pack * ind_pct / 100`. -/
def ind_no_pack (m : Model) : ℚ := var_no_pack m * m.ind_pct / 100

/-- `prod_cost_no_pack = var_no_pack + ind_no_pack`. -/
def prod_cost_no_pack (m : Model) : ℚ := var_no_pack m + ind_no_pack m

/-- `real_volL = vol_batch * (1 - loss_pct / 100)`. -/
def real_volL (m : Model) : ℚ := m.vol_batch * (1 - m.loss_pct / 100)

/-- `real_bott = real_volL * 1000 / bottle_ml if bottle_ml else 0`. -/
def real_bott (m : Model) : ℚ :=
  if m.bottle_ml = 0 then 0 else real_volL m * 1000 / m.bottle_ml

/-- `cost_bot = total_lot / real_bott if real_bott else 0`. -/
def cost_bot (m : Model) : ℚ :=
  if real_bott m = 0 then 0 else total_lot m / real_bott m

/-- `cost_L = prod_cost_no_pack / real_volL if real_volL else 0`. -/
def cost_L (m : Model) : ℚ :=
  if real_volL m = 0 then 0 else prod_cost_no_pack m / real_volL m

/-- The packaging-excluded variable cost is the sum of every non-packaging
variable component. -/
theorem var_no_pack_eq (m : Model) :
    var_no_pack m = ing_cost m + aux_cost m + m.energy_cost + lab_cost m + m.flete := by
  unfold var_no_pack total_var; ring

/-- C1: for every model state the computed costs satisfy exactly the spec's
formulas: each table cost is the sum over its rows of quantity (resp. units)
times unit cost, labor is hours times rate, the variable cost is the sum of
the six components, overhead is `variableCost * overheadPercent / 100`, and
the batch total is variable cost plus overhead. -/
theorem c1_cost_formulas (m : Model) :
    ing_cost m = (m.ing.map (fun r => r.cantidad * r.costo)).sum ∧
    pack_cost m = (m.pack.map (fun r => r.unidades * r.costo)).sum ∧
    aux_cost m = (m.aux.map (fun r => r.cantidad * r.costo)).sum ∧
    lab_cost m = m.lab_hours * m.lab_rate ∧
    total_var m = ing_cost m + pack_cost m + aux_cost m
      + m.energy_cost + lab_cost m + m.flete ∧
    ind_cost m = total_var m * m.ind_pct / 100 ∧
    total_lot m = total_var m + ind_cost m :=
  ⟨rfl, rfl, rfl, rfl, rfl, rfl, rfl⟩

/-- The default state with the container size set to zero. -/
def zeroBottleModel : Model := { defaultModel with bottle_ml := 0 }

/-- C3 counterexample: with `containerMilliliters = 0` but a nonzero effective
volume, `cost_L` is the unguarded quotient (≈1783.2), not `0` as the claim
states: the per-liter guard tests only the effective volume. -/
theorem c3_counterexample :
    zeroBottleModel.bottle_ml = 0 ∧ real_volL zeroBottleModel ≠ 0 ∧
    cost_L zeroBottleModel ≠ 0 := by
  refine ⟨rfl, ?_, ?_⟩ <;>
    norm_num [cost_L, prod_cost_no_pack, ind_no_pack, var_no_pack, total_var,
      ing_cost, pack_cost, aux_cost, lab_cost, real_volL, zeroBottleModel,
      defaultModel, default_ingredients, default_packaging, default_aux,
      List.replicate]

/-- C3 (amended): if the container size or the effective volume is zero then
the bottle count and the per-bottle cost are zero (and nothing divides by
zero); the per-liter cost is zero when the effective volume is zero, but is
unaffected by the container size. -/
theorem c3_zero_volume_amended (m : Model)
    (h : m.bottle_ml = 0 ∨ real_volL m = 0) :
    real_bott m = 0 ∧ cost_bot m = 0 ∧ (real_volL m = 0 → cost_L m = 0) := by
  have hb : real_bott m = 0 := by
    rcases h with h | h
    · simp [real_bott, h]
    · simp [real_bott, h]
  refine ⟨hb, ?_, ?_⟩
  · simp [cost_bot, hb]
  · intro hv; simp [cost_L, hv]

/-- Witness for the amended C3 at the concrete zero-container state. -/
theorem c3_zero_volume_amended_witness :
    real_bott zeroBottleModel = 0 ∧ cost_bot zeroBottleModel = 0 ∧
    (real_volL zeroBottleModel = 0 → cost_L zeroBottleModel = 0) :=
  c3_zero_volume_amended zeroBottleModel (Or.inl (by decide))

/-- C4: two states that agree on everything except their packaging tables
produce the same per-liter cost, whose overhead share is recomputed on the
packaging-excluded variable cost. -/
theorem c4_packaging_exclusion (m₁ m₂ : Model)
    (hv : m₁.vol_batch = m₂.vol_batch) (hl : m₁.loss_pct = m₂.loss_pct)
    (he : m₁.energy_cost = m₂.energy_cost) (hh : m₁.lab_hours = m₂.lab_hours)
    (hr : m₁.lab_rate = m₂.lab_rate) (hf : m₁.flete = m₂.flete)
    (hp : m₁.ind_pct = m₂.ind_pct) (hi : m₁.ing = m₂.ing) (ha : m₁.aux = m₂.aux) :
    cost_L m₁ = cost_L m₂ ∧ prod_cost_no_pack m₁ = prod_cost_no_pack m₂ ∧
    ind_no_pack m₁ = var_no_pack m₁ * m₁.ind_pct / 100 := by
  have hvar : var_no_pack m₁ = var_no_pack m₂ := by
    rw [var_no_pack_eq, var_no_pack_eq]
    unfold ing_cost aux_cost lab_cost
    rw [hi, ha, he, hh, hr, hf]
  have hprod : prod_cost_no_pack m₁ = prod_cost_no_pack m₂ := by
    unfold prod_cost_no_pack ind_no_pack
    rw [hvar, hp]
  have hvol : real_volL m₁ = real_volL m₂ := by
    unfold real_volL; rw [hv, hl]
  refine ⟨?_, hprod, rfl⟩
  unfold cost_L
  rw [hvol, hprod]

/-- The default state with every packaging row deleted. -/
def noPackModel : Model := { defaultModel with pack := [] }

/-- Witness for C4: deleting all packaging rows from the default state leaves
the per-liter cost unchanged. -/
theorem c4_packaging_exclusion_witness :
    cost_L defaultModel = cost_L noPackModel ∧
    prod_cost_no_pack defaultModel = prod_cost_no_pack noPackModel ∧
    ind_no_pack defaultModel = var_no_pack defaultModel * defaultModel.ind_pct / 100 :=
  c4_packaging_exclusion defaultModel noPackModel rfl rfl rfl rfl rfl rfl rfl rfl rfl

/-- C7 counterexample: at the default state the exact per-bottle cost lies in
(791.9, 792) and the exact per-liter cost in (1783, 1783.3), so the claimed
approximations 791.76 and 1782.1 are off by more than their displayed
precision. -/
theorem c7_counterexample :
    cost_bot defaultModel ≠ 79176/100 ∧
    7919/10 < cost_bot defaultModel ∧ cost_bot defaultModel < 792 ∧
    cost_L defaultModel ≠ 17821/10 ∧
    1783 < cost_L defaultModel ∧ cost_L defaultModel < 17833/10 := by
  norm_num [cost_bot, cost_L, total_lot, ind_cost, prod_cost_no_pack,
    ind_no_pack, var_no_pack, total_var, ing_cost, pack_cost, aux_cost,
    lab_cost, real_volL, real_bott, defaultModel, default_ingredients,
    default_packaging, default_aux, List.replicate]

/-- C7 (amended): the default scenario computes exactly the claimed ingredient,
packaging, auxiliary, labor, variable, overhead and total figures, the claimed
effective volume and bottle count, and the packaging-excluded figures; the
per-bottle cost is exactly 29144181/36800 ≈ 791.96 and the per-liter cost
exactly 656227/368 ≈ 1783.2 (not 791.76 and 1782.1). -/
theorem c7_default_scenario :
    ing_cost defaultModel = 3708.5 ∧
    pack_cost defaultModel = 10315 ∧
    aux_cost defaultModel = 820 ∧
    lab_cost defaultModel = 24000 ∧
    total_var defaultModel = 40143.5 ∧
    ind_cost defaultModel = 4014.35 ∧
    total_lot defaultModel = 44157.85 ∧
    real_volL defaultModel = 18.4 ∧
    real_bott defaultModel = 18400/330 ∧
    cost_bot defaultModel = 29144181/36800 ∧
    var_no_pack defaultModel = 29828.5 ∧
    ind_no_pack defaultModel = 2982.85 ∧
    prod_cost_no_pack defaultModel = 32811.35 ∧
    cost_L defaultModel = 656227/368 := by
  norm_num [cost_bot, cost_L, total_lot, ind_cost, prod_cost_no_pack,
    ind_no_pack, var_no_pack, total_var, ing_cost, pack_cost, aux_cost,
    lab_cost, real_volL, real_bott, defaultModel, default_ingredients,
    default_packaging, default_aux, List.replicate]

/-- C8: permuting the rows of any of the three tables (all scalar parameters
kept equal) changes none of the computed costs or yield figures. -/
theorem c8_permutation_invariance (m₁ m₂ : Model)
    (hv : m₁.vol_batch = m₂.vol_batch) (hb : m₁.bottle_ml = m₂.bottle_ml)
    (hl : m₁.loss_pct = m₂.loss_pct) (he : m₁.energy_cost = m₂.energy_cost)
    (hh : m₁.lab_hours = m₂.lab_hours) (hr : m₁.lab_rate = m₂.lab_rate)
    (hf : m₁.flete = m₂.flete) (hp : m₁.ind_pct = m₂.ind_pct)
    (hing : m₁.ing.Perm m₂.ing) (hpack : m₁.pack.Perm m₂.pack)
    (haux : m₁.aux.Perm m₂.aux) :
    ing_cost m₁ = ing_cost m₂ ∧ pack_cost m₁ = pack_cost m₂ ∧
    aux_cost m₁ = aux_cost m₂ ∧ total_var m₁ = total_var m₂ ∧
    ind_cost m₁ = ind_cost m₂ ∧ total_lot m₁ = total_lot m₂ ∧
    var_no_pack m₁ = var_no_pack m₂ ∧ prod_cost_no_pack m₁ = prod_cost_no_pack m₂ ∧
    real_volL m₁ = real_volL m₂ ∧ real_bott m₁ = real_bott m₂ ∧
    cost_bot m₁ = cost_bot m₂ ∧ cost_L m₁ = cost_L m₂ := by
  have hic : ing_cost m₁ = ing_cost m₂ := by
    unfold ing_cost
    exact (hing.map (fun r => r.cantidad * r.costo)).sum_eq
  have hpc : pack_cost m₁ = pack_cost m₂ := by
    unfold pack_cost
    exact (hpack.map (fun r => r.unidades * r.costo)).sum_eq
  have hac : aux_cost m₁ = aux_cost m₂ := by
    unfold aux_cost
    exact (haux.map (fun r => r.cantidad * r.costo)).sum_eq
  have hlc : lab_cost m₁ = lab_cost m₂ := by unfold lab_cost; rw [hh, hr]
  have htv : total_var m₁ = total_var m₂ := by
    unfold total_var; rw [hic, hpc, hac, he, hlc, hf]
  have hind : ind_cost m₁ = ind_cost m₂ := by unfold ind_cost; rw [htv, hp]
  have htl : total_lot m₁ = total_lot m₂ := by unfold total_lot; rw [htv, hind]
  have hvnp : var_no_pack m₁ = var_no_pack m₂ := by unfold var_no_pack; rw [htv, hpc]
  have hpnp : prod_cost_no_pack m₁ = prod_cost_no_pack m₂ := by
    unfold prod_cost_no_pack ind_no_pack; rw [hvnp, hp]
  have hrv : real_volL m₁ = real_volL m₂ := by unfold real_volL; rw [hv, hl]
  have hrb : real_bott m₁ = real_bott m₂ := by unfold real_bott; rw [hrv, hb]
  have hcb : cost_bot m₁ = cost_bot m₂ := by unfold cost_bot; rw [hrb, htl]
  have hcl : cost_L m₁ = cost_L m₂ := by unfold cost_L; rw [hrv, hpnp]
  exact ⟨hic, hpc, hac, htv, hind, htl, hvnp, hpnp, hrv, hrb, hcb, hcl⟩

/-- The default state with each table's rows reversed. -/
def reversedModel : Model :=
  { defaultModel with
    ing := defaultModel.ing.reverse
    pack := defaultModel.pack.reverse
    aux := defaultModel.aux.reverse }

/-- Witness for C8: reversing every table of the default state changes no
computed figure. -/
theorem c8_permutation_invariance_witness :
    ing_cost defaultModel = ing_cost reversedModel ∧
    pack_cost defaultModel = pack_cost reversedModel ∧
    aux_cost defaultModel = aux_cost reversedModel ∧
    total_var defaultModel = total_var reversedModel ∧
    ind_cost defaultModel = ind_cost reversedModel ∧
    total_lot defaultModel = total_lot reversedModel ∧
    var_no_pack defaultModel = var_no_pack reversedModel ∧
    prod_cost_no_pack defaultModel = prod_cost_no_pack reversedModel ∧
    real_volL defaultModel = real_volL reversedModel ∧
    real_bott defaultModel = real_bott reversedModel ∧
    cost_bot defaultModel = cost_bot reversedModel ∧
    cost_L defaultModel = cost_L reversedModel :=
  c8_permutation_invariance defaultModel reversedModel rfl rfl rfl rfl rfl rfl rfl rfl
    (List.reverse_perm _).symm (List.reverse_perm _).symm (List.reverse_perm _).symm

/-!
The persistence layer.  `build_save_df` / `to_csv` and `read_csv` /
`load_save_df` move the model through two textual encodings: each table is
serialized by pandas `to_json(orient="records")` into a JSON array of flat
row objects, and the resulting three-column record table is written as CSV.
Both library codecs are embedded here as executable character-list
functions.  Two deliberate simplifications, neither of which affects any
claim: non-ASCII characters are kept literal instead of `\\uXXXX`-escaped
(pandas' `force_ascii` flag), and floats are exact decimal rationals.
-/

/-- Numeric value of a decimal digit character. -/
def charDigit (c : Char) : ℕ := c.toNat - 48

/-- The decimal digit character for `d < 10`. -/
def digitChar (d : ℕ) : Char := Char.ofNat (48 + d)

/-- Decimal numeral of a natural number (big-endian), as Python/pandas print it. -/
def renderNat (n : ℕ) : List Char :=
  if n = 0 then ['0'] else ((Nat.digits 10 n).map digitChar).reverse

/-- The number denoted by a big-endian list of digit characters. -/
def natFromDigits (ds : List Char) : ℕ :=
  Nat.ofDigits 10 ((ds.map charDigit).reverse)

/-- Split a leading run of digit characters off the input. -/
def parseDigits : List Char → List Char × List Char
  | [] => ([], [])
  | c :: cs =>
    if c.isDigit then
      ((parseDigits cs).1.cons c, (parseDigits cs).2)
    else ([], c :: cs)

/-- The input does not begin with a digit, so a numeral before it ends there. -/
def headNotDigit (cs : List Char) : Bool :=
  match cs with
  | [] => true
  | c :: _ => !c.isDigit

/-- The input cannot extend a decimal numeral: no digit and no decimal point. -/
def numBoundary (cs : List Char) : Bool :=
  match cs with
  | [] => true
  | c :: _ => !c.isDigit && c != '.'

theorem charDigit_digitChar {d : ℕ} (hd : d < 10) : charDigit (digitChar d) = d := by
  interval_cases d <;> decide

theorem isDigit_digitChar {d : ℕ} (hd : d < 10) : (digitChar d).isDigit = true := by
  interval_cases d <;> decide

theorem renderNat_ne_nil (n : ℕ) : renderNat n ≠ [] := by
  unfold renderNat
  split
  · simp
  · simp_all [Nat.digits_ne_nil_iff_ne_zero]

theorem renderNat_digits (n : ℕ) : ∀ c ∈ renderNat n, c.isDigit = true := by
  intro c hc
  unfold renderNat at hc
  split at hc
  · simp at hc; subst hc; decide
  · simp only [List.mem_reverse, List.mem_map] at hc
    obtain ⟨d, hd, rfl⟩ := hc
    exact isDigit_digitChar (Nat.digits_lt_base (by norm_num) hd)

theorem natFromDigits_renderNat (n : ℕ) : natFromDigits (renderNat n) = n := by
  unfold natFromDigits renderNat
  split
  · simp_all [Nat.ofDigits]
    decide
  · rw [List.map_reverse, List.reverse_reverse, List.map_map]
    have : (Nat.digits 10 n).map (charDigit ∘ digitChar) = Nat.digits 10 n := by
      apply List.map_congr_left ?_ |>.trans (List.map_id _)
      intro d hd
      exact charDigit_digitChar (Nat.digits_lt_base (by norm_num) hd)
    rw [this, Nat.ofDigits_digits]

theorem parseDigits_append (l r : List Char) (hl : ∀ c ∈ l, c.isDigit = true)
    (hr : headNotDigit r = true) : parseDigits (l ++ r) = (l, r) := by
  induction l with
  | nil =>
    cases r with
    | nil => rfl
    | cons c cs =>
      simp only [headNotDigit, Bool.not_eq_true'] at hr
      simp [parseDigits, hr]
  | cons c cs ih =>
    have hc : c.isDigit = true := hl c (List.mem_cons_self c cs)
    have hcs : parseDigits (cs ++ r) = (cs, r) :=
      ih (fun x hx => hl x (List.mem_cons_of_mem c hx))
    simp [parseDigits, hc, hcs]

/-- A number is parsed back from the digits that follow the input's head. -/
def parseNat (cs : List Char) : Option (ℕ × List Char) :=
  if (parseDigits cs).1 = [] then none
  else some (natFromDigits (parseDigits cs).1, (parseDigits cs).2)

theorem parseNat_renderNat (n : ℕ) (r : List Char) (hr : headNotDigit r = true) :
    parseNat (renderNat n ++ r) = some (n, r) := by
  unfold parseNat
  rw [parseDigits_append _ _ (renderNat_digits n) hr]
  simp [renderNat_ne_nil n, natFromDigits_renderNat n]

/-- The fractional digits of `m`, left-padded with zeros to width `k`
(pandas prints `0.011` for `11` at width `3`). -/
def renderPad (m k : ℕ) : List Char :=
  List.replicate (k - (renderNat m).length) '0' ++ renderNat m

theorem renderPad_digits (m k : ℕ) : ∀ c ∈ renderPad m k, c.isDigit = true := by
  intro c hc
  unfold renderPad at hc
  rcases List.mem_append.1 hc with h | h
  · rw [List.eq_of_mem_replicate h]; decide
  · exact renderNat_digits m c h

theorem renderPad_ne_nil (m k : ℕ) : renderPad m k ≠ [] := by
  unfold renderPad
  intro h
  exact renderNat_ne_nil m (List.append_eq_nil.mp h).2

theorem digits_len_le_of_lt {m k : ℕ} (hm : m ≠ 0) (h : m < 10 ^ k) :
    (Nat.digits 10 m).length ≤ k := by
  rw [Nat.digits_len 10 m (by norm_num) hm]
  have := Nat.log_lt_of_lt_pow hm h
  omega

theorem renderPad_length {m k : ℕ} (hk : k ≠ 0) (hm : m < 10 ^ k) :
    (renderPad m k).length = k := by
  unfold renderPad
  rw [List.length_append, List.length_replicate]
  have hle : (renderNat m).length ≤ k := by
    by_cases hm0 : m = 0
    · simp [renderNat, hm0]; omega
    · unfold renderNat
      rw [if_neg hm0, List.length_reverse, List.length_map]
      exact digits_len_le_of_lt hm0 hm
  omega

theorem ofDigits_replicate_zero (z : ℕ) :
    Nat.ofDigits 10 (List.replicate z (0 : ℕ)) = 0 := by
  induction z with
  | zero => rfl
  | succ z ih => simp [List.replicate_succ, Nat.ofDigits_cons, ih]

theorem natFromDigits_renderPad (m k : ℕ) : natFromDigits (renderPad m k) = m := by
  unfold natFromDigits renderPad
  rw [List.map_append, List.reverse_append, List.map_replicate]
  have hz : charDigit '0' = 0 := by decide
  rw [hz, List.reverse_replicate, Nat.ofDigits_append, ofDigits_replicate_zero]
  have hm := natFromDigits_renderNat m
  unfold natFromDigits at hm
  simp [hm]

/-- The smallest exponent `k ≤ 64` with `q.den ∣ 10^k`: the width of the exact
decimal expansion of `q`, when it has one in double range. -/
def decExp (q : ℚ) : Option ℕ :=
  (List.range 65).find? (fun k => decide (q.den ∣ 10 ^ k))

/-- `q` has an exact decimal representation of double-precision width: this is
the embedding's reading of the spec's "finite numbers". -/
def CleanQ (q : ℚ) : Bool := (decExp q).isSome

theorem decExp_dvd {q : ℚ} {k : ℕ} (h : decExp q = some k) : q.den ∣ 10 ^ k := by
  unfold decExp at h
  have hp := List.find?_some h
  simp only [decide_eq_true_eq] at hp
  exact hp

theorem decExp_neg (q : ℚ) : decExp (-q) = decExp q := by
  unfold decExp
  rw [Rat.neg_den]

/-- Decimal rendering of a nonnegative rational, as pandas and Python print
floats: integer digits, then a point and the fraction when it is nonzero. -/
def renderQnum (q : ℚ) : List Char :=
  match decExp q with
  | none => ['0']
  | some k =>
    if k = 0 then renderNat (q.num.toNat * (10 ^ k / q.den))
    else
      renderNat (q.num.toNat * (10 ^ k / q.den) / 10 ^ k) ++
        '.' :: renderPad (q.num.toNat * (10 ^ k / q.den) % 10 ^ k) k

/-- Decimal rendering of a rational, with a sign for negative values. -/
def renderQ (q : ℚ) : List Char :=
  if q < 0 then '-' :: renderQnum (-q) else renderQnum q

/-- After the integer part, an optional point and fraction. -/
def parseFrac (n : ℕ) (cs : List Char) : Option (ℚ × List Char) :=
  if cs.head? = some '.' then
    if (parseDigits cs.tail).1 = [] then none
    else
      some ((n : ℚ) + (natFromDigits (parseDigits cs.tail).1 : ℚ)
          / 10 ^ (parseDigits cs.tail).1.length,
        (parseDigits cs.tail).2)
  else some ((n : ℚ), cs)

/-- A nonnegative decimal numeral. -/
def parseQnum (cs : List Char) : Option (ℚ × List Char) :=
  (parseNat cs).bind (fun p => parseFrac p.1 p.2)

/-- A decimal numeral with an optional leading minus sign. -/
def parseQ (cs : List Char) : Option (ℚ × List Char) :=
  if cs.head? = some '-' then (parseQnum cs.tail).map (fun p => (-p.1, p.2))
  else parseQnum cs

theorem renderQnum_eq_some {q : ℚ} {k : ℕ} (h : decExp q = some k) :
    renderQnum q =
      if k = 0 then renderNat (q.num.toNat * (10 ^ k / q.den))
      else
        renderNat (q.num.toNat * (10 ^ k / q.den) / 10 ^ k) ++
          '.' :: renderPad (q.num.toNat * (10 ^ k / q.den) % 10 ^ k) k := by
  unfold renderQnum
  rw [h]

theorem renderQnum_eq_none {q : ℚ} (h : decExp q = none) : renderQnum q = ['0'] := by
  unfold renderQnum
  rw [h]

theorem headNotDigit_of_numBoundary {r : List Char} (h : numBoundary r = true) :
    headNotDigit r = true := by
  cases r with
  | nil => rfl
  | cons c cs =>
    simp only [numBoundary, Bool.and_eq_true] at h
    simp [headNotDigit, h.1]

theorem parseFrac_cons_dot (n : ℕ) (cs : List Char) :
    parseFrac n ('.' :: cs) =
      if (parseDigits cs).1 = [] then none
      else
        some ((n : ℚ) + (natFromDigits (parseDigits cs).1 : ℚ) / 10 ^ (parseDigits cs).1.length,
          (parseDigits cs).2) := by
  unfold parseFrac
  simp

theorem parseFrac_boundary (n : ℕ) {r : List Char} (hr : numBoundary r = true) :
    parseFrac n r = some ((n : ℚ), r) := by
  unfold parseFrac
  cases r with
  | nil => simp
  | cons c cs =>
    simp only [numBoundary, Bool.and_eq_true, bne_iff_ne, ne_eq] at hr
    simp [hr.2]

theorem repr_decimal {q : ℚ} {k : ℕ} (hq : 0 ≤ q) (hd : q.den ∣ 10 ^ k) :
    ((q.num.toNat * (10 ^ k / q.den) : ℕ) : ℚ) = q * 10 ^ k := by
  have hden : (q.den : ℚ) ≠ 0 := by
    exact_mod_cast q.den_pos.ne'
  have htn : ((q.num.toNat : ℕ) : ℚ) = (q.num : ℚ) := by
    exact_mod_cast Int.toNat_of_nonneg (Rat.num_nonneg.mpr hq)
  calc ((q.num.toNat * (10 ^ k / q.den) : ℕ) : ℚ)
      = ((q.num.toNat : ℕ) : ℚ) * (((10 ^ k / q.den : ℕ)) : ℚ) := by push_cast; ring
    _ = (q.num : ℚ) * (((10 ^ k / q.den : ℕ)) : ℚ) := by rw [htn]
    _ = (q.num : ℚ) * (((10 ^ k : ℕ) : ℚ) / (q.den : ℚ)) := by rw [Nat.cast_div hd hden]
    _ = (q.num : ℚ) / (q.den : ℚ) * 10 ^ k := by push_cast; ring
    _ = q * 10 ^ k := by rw [Rat.num_div_den]

theorem parseQnum_renderQnum {q : ℚ} (hq : 0 ≤ q) {k : ℕ} (hk : decExp q = some k)
    {r : List Char} (hr : numBoundary r = true) :
    parseQnum (renderQnum q ++ r) = some (q, r) := by
  have hdvd := decExp_dvd hk
  have hrepr := repr_decimal hq hdvd
  have hnd : headNotDigit r = true := headNotDigit_of_numBoundary hr
  rw [renderQnum_eq_some hk]
  by_cases h0 : k = 0
  · subst h0
    rw [if_pos rfl]
    unfold parseQnum
    rw [parseNat_renderNat _ _ hnd]
    simp only [Option.some_bind]
    rw [parseFrac_boundary _ hr, hrepr]
    norm_num
  · rw [if_neg h0]
    have hkpos : (0 : ℕ) < 10 ^ k := Nat.pos_pow_of_pos k (by norm_num)
    rw [List.append_assoc, List.cons_append]
    unfold parseQnum
    have hnd2 : headNotDigit
        ('.' :: (renderPad (q.num.toNat * (10 ^ k / q.den) % 10 ^ k) k ++ r)) = true := by
      simp [headNotDigit]
    rw [parseNat_renderNat _ _ hnd2]
    simp only [Option.some_bind]
    rw [parseFrac_cons_dot]
    rw [parseDigits_append _ _ (renderPad_digits _ _) hnd]
    have hpadne := renderPad_ne_nil (q.num.toNat * (10 ^ k / q.den) % 10 ^ k) k
    have hpadlen := @renderPad_length (q.num.toNat * (10 ^ k / q.den) % 10 ^ k) k h0
      (Nat.mod_lt _ hkpos)
    have hpadval := natFromDigits_renderPad (q.num.toNat * (10 ^ k / q.den) % 10 ^ k) k
    have hsplit : ((10 ^ k : ℕ) : ℚ) * ((q.num.toNat * (10 ^ k / q.den) / 10 ^ k : ℕ) : ℚ)
        + ((q.num.toNat * (10 ^ k / q.den) % 10 ^ k : ℕ) : ℚ) = q * 10 ^ k := by
      rw [← hrepr]
      exact_mod_cast congrArg (fun n : ℕ => (n : ℚ))
        (Nat.div_add_mod (q.num.toNat * (10 ^ k / q.den)) (10 ^ k))
    push_cast at hsplit
    have h10 : ((10 : ℚ)) ^ k ≠ 0 := pow_ne_zero _ (by norm_num)
    have hval : ((q.num.toNat * (10 ^ k / q.den) / 10 ^ k : ℕ) : ℚ)
        + ((q.num.toNat * (10 ^ k / q.den) % 10 ^ k : ℕ) : ℚ) / 10 ^ k = q := by
      field_simp
      linarith [hsplit]
    simp [hpadne, hpadval, hpadlen, hval]

theorem renderQnum_head (q : ℚ) :
    ∃ c cs, renderQnum q = c :: cs ∧ c.isDigit = true := by
  cases hk : decExp q with
  | none => exact ⟨'0', [], renderQnum_eq_none hk, by decide⟩
  | some k =>
    rw [renderQnum_eq_some hk]
    by_cases h0 : k = 0
    · subst h0
      rw [if_pos rfl]
      cases h : renderNat (q.num.toNat * (10 ^ 0 / q.den)) with
      | nil => exact absurd h (renderNat_ne_nil _)
      | cons c cs =>
        have hmem : c ∈ renderNat (q.num.toNat * (10 ^ 0 / q.den)) := by
          rw [h]
          exact List.mem_cons_self c cs
        exact ⟨c, cs, rfl, renderNat_digits _ c hmem⟩
    · rw [if_neg h0]
      cases h : renderNat (q.num.toNat * (10 ^ k / q.den) / 10 ^ k) with
      | nil => exact absurd h (renderNat_ne_nil _)
      | cons c cs =>
        have hmem : c ∈ renderNat (q.num.toNat * (10 ^ k / q.den) / 10 ^ k) := by
          rw [h]
          exact List.mem_cons_self c cs
        exact ⟨c, cs ++ '.' :: renderPad (q.num.toNat * (10 ^ k / q.den) % 10 ^ k) k,
          rfl, renderNat_digits _ c hmem⟩

theorem parseQ_renderQ {q : ℚ} (hc : CleanQ q = true) {r : List Char}
    (hr : numBoundary r = true) :
    parseQ (renderQ q ++ r) = some (q, r) := by
  obtain ⟨k, hk⟩ := Option.isSome_iff_exists.mp hc
  unfold renderQ
  by_cases hneg : q < 0
  · rw [if_pos hneg]
    unfold parseQ
    rw [List.cons_append]
    simp only [List.head?_cons, List.tail_cons, if_true]
    have hk' : decExp (-q) = some k := by rw [decExp_neg]; exact hk
    rw [parseQnum_renderQnum (neg_nonneg.mpr hneg.le) hk' hr]
    simp
  · rw [if_neg hneg]
    push_neg at hneg
    obtain ⟨c, cs, hcons, hdig⟩ := renderQnum_head q
    unfold parseQ
    rw [hcons, List.cons_append, List.head?_cons]
    have hcne : ¬ (some c = some '-') := by
      intro h
      rw [Option.some_inj.mp h] at hdig
      exact absurd hdig (by decide)
    rw [if_neg hcne, ← List.cons_append, ← hcons]
    exact parseQnum_renderQnum hneg hk hr

/-- One cell of a serialized table: the nested encoding distinguishes JSON
strings from JSON numbers exactly as pandas `to_json` / `read_json` do. -/
inductive JCell where
  | s (v : String)
  | n (v : ℚ)
  deriving DecidableEq, Repr

/-- One row object of the nested encoding: an ordered column-to-value map. -/
abbrev JRow := List (String × JCell)

/-- Text that survives the nested encoding untouched: printable, no quote,
no backslash (the spec's "text free of encoding-breaking control chars"). -/
def CleanStr (s : String) : Bool :=
  s.data.all (fun c => decide (32 ≤ c.toNat) && c != '"' && c != '\\')

/-- A cell the nested encoding represents exactly. -/
def CleanCell : JCell → Bool
  | .s v => CleanStr v
  | .n v => CleanQ v

/-- JSON string-body escaping of the two structural characters. -/
def escapeJ (cs : List Char) : List Char :=
  cs.flatMap (fun c => if c = '"' ∨ c = '\\' then ['\\', c] else [c])

/-- A JSON string literal. -/
def renderJStr (s : String) : List Char :=
  '"' :: (escapeJ s.data ++ ['"'])

/-- A serialized cell. -/
def renderJCell : JCell → List Char
  | .s v => renderJStr v
  | .n v => renderQ v

/-- The character a JSON escape sequence denotes. -/
def unescapeChar (c : Char) : Char :=
  if c = 'n' then '\n' else if c = 't' then '\t' else if c = 'r' then '\r' else c

/-- JSON string body up to the closing quote, decoding escape sequences. -/
def parseJStrAux : List Char → Option (List Char × List Char)
  | [] => none
  | c :: r =>
    if c = '"' then some ([], r)
    else if c = '\\' then
      match r with
      | [] => none
      | e :: r2 => (parseJStrAux r2).map (fun p => (unescapeChar e :: p.1, p.2))
    else (parseJStrAux r).map (fun p => (c :: p.1, p.2))

/-- A serialized cell: a string if it opens with a quote, else a number. -/
def parseJCell (cs : List Char) : Option (JCell × List Char) :=
  if cs.head? = some '"' then
    (parseJStrAux cs.tail).map (fun p => (JCell.s (String.mk p.1), p.2))
  else
    (parseQ cs).map (fun p => (JCell.n p.1, p.2))

theorem CleanStr_spec {s : String} (h : CleanStr s = true) :
    ∀ c ∈ s.data, c ≠ '"' ∧ c ≠ '\\' := by
  intro c hc
  unfold CleanStr at h
  rw [List.all_eq_true] at h
  have := h c hc
  simp only [Bool.and_eq_true, bne_iff_ne, ne_eq] at this
  exact ⟨this.1.2, this.2⟩

theorem escapeJ_clean {s : List Char} (h : ∀ c ∈ s, c ≠ '"' ∧ c ≠ '\\') :
    escapeJ s = s := by
  induction s with
  | nil => rfl
  | cons c cs ih =>
    have hc := h c (List.mem_cons_self c cs)
    have hcs := ih (fun x hx => h x (List.mem_cons_of_mem c hx))
    unfold escapeJ at hcs ⊢
    simp only [List.flatMap_cons, hcs]
    rw [if_neg (by tauto)]
    rfl

theorem parseJStrAux_cons (c : Char) (r : List Char) :
    parseJStrAux (c :: r) =
      if c = '"' then some ([], r)
      else if c = '\\' then
        match r with
        | [] => none
        | e :: r2 => (parseJStrAux r2).map (fun p => (unescapeChar e :: p.1, p.2))
      else (parseJStrAux r).map (fun p => (c :: p.1, p.2)) := by
  conv_lhs => rw [parseJStrAux.eq_def]

theorem parseJStrAux_append {s : List Char} (h : ∀ c ∈ s, c ≠ '"' ∧ c ≠ '\\')
    (r : List Char) : parseJStrAux (s ++ '"' :: r) = some (s, r) := by
  induction s with
  | nil =>
    rw [List.nil_append, parseJStrAux_cons, if_pos rfl]
  | cons c cs ih =>
    have hc := h c (List.mem_cons_self c cs)
    have hcs := ih (fun x hx => h x (List.mem_cons_of_mem c hx))
    rw [List.cons_append, parseJStrAux_cons, if_neg hc.1, if_neg hc.2, hcs]
    rfl

theorem strMk_data (v : String) : String.mk v.data = v := by
  cases v
  rfl

theorem numBoundary_cons {c : Char} (h1 : c.isDigit = false) (h2 : c ≠ '.')
    (r : List Char) : numBoundary (c :: r) = true := by
  simp [numBoundary, h1, h2]

theorem renderQ_head (q : ℚ) :
    ∃ c cs, renderQ q = c :: cs ∧ (c.isDigit = true ∨ c = '-') := by
  unfold renderQ
  by_cases h : q < 0
  · rw [if_pos h]
    exact ⟨'-', renderQnum (-q), rfl, Or.inr rfl⟩
  · rw [if_neg h]
    obtain ⟨c, cs, hcons, hd⟩ := renderQnum_head q
    exact ⟨c, cs, hcons, Or.inl hd⟩

theorem parseJCell_render {c : JCell} (hc : CleanCell c = true)
    {r : List Char} (hr : numBoundary r = true) :
    parseJCell (renderJCell c ++ r) = some (c, r) := by
  cases c with
  | s v =>
    have hclean := CleanStr_spec (show CleanStr v = true from hc)
    unfold renderJCell renderJStr parseJCell
    rw [List.cons_append]
    simp only [List.head?_cons, List.tail_cons, if_true]
    rw [List.append_assoc, List.singleton_append, escapeJ_clean hclean,
      parseJStrAux_append hclean r]
    simp [strMk_data]
  | n v =>
    have hcq : CleanQ v = true := hc
    obtain ⟨c0, cs0, hc0, hd0⟩ := renderQ_head v
    simp only [renderJCell]
    unfold parseJCell
    rw [hc0, List.cons_append, List.head?_cons]
    have hne : ¬ (some c0 = some '"') := by
      intro he
      rcases hd0 with h | h
      · rw [Option.some_inj.mp he] at h
        exact absurd h (by decide)
      · rw [h] at he
        exact absurd (Option.some_inj.mp he) (by decide)
    rw [if_neg hne, ← List.cons_append, ← hc0, parseQ_renderQ hcq hr]
    rfl

/-- One `"name":value` member of a row object. -/
def renderPair (p : String × JCell) : List Char :=
  renderJStr p.1 ++ ':' :: renderJCell p.2

/-- The members of a row object, comma-separated. -/
def renderPairs : JRow → List Char
  | [] => []
  | [p] => renderPair p
  | p :: ps => renderPair p ++ ',' :: renderPairs ps

/-- A row object `{...}`. -/
def renderRow (row : JRow) : List Char :=
  '{' :: (renderPairs row ++ ['}'])

/-- The row objects of a table, comma-separated. -/
def renderRows : List JRow → List Char
  | [] => []
  | [row] => renderRow row
  | row :: rows => renderRow row ++ ',' :: renderRows rows

/-- A whole table `[...]`, as pandas `DataFrame.to_json(orient="records")`
emits it. -/
def renderTable (t : List JRow) : List Char :=
  '[' :: (renderRows t ++ [']'])

/-- String form of the serialized table. -/
def renderTableStr (t : List JRow) : String := String.mk (renderTable t)

/-- One `"name":value` member. -/
def parsePair (cs : List Char) : Option ((String × JCell) × List Char) :=
  if cs.head? = some '"' then
    (parseJStrAux cs.tail).bind (fun p1 =>
      if p1.2.head? = some ':' then
        (parseJCell p1.2.tail).map (fun p2 => ((String.mk p1.1, p2.1), p2.2))
      else none)
  else none

/-- The members of a row object after its `{`, consuming the closing `}`. -/
def parsePairsAux : ℕ → List Char → Option (JRow × List Char)
  | 0, _ => none
  | fuel + 1, cs =>
    (parsePair cs).bind (fun p =>
      if p.2.head? = some ',' then
        (parsePairsAux fuel p.2.tail).map (fun ps => (p.1 :: ps.1, ps.2))
      else if p.2.head? = some '}' then some ([p.1], p.2.tail)
      else none)

/-- A row object. -/
def parseRow (cs : List Char) : Option (JRow × List Char) :=
  if cs.head? = some '{' then
    if cs.tail.head? = some '}' then some ([], cs.tail.tail)
    else parsePairsAux (cs.length + 1) cs.tail
  else none

/-- The row objects of a table after its `[`, consuming the closing `]`. -/
def parseRowsAux : ℕ → List Char → Option (List JRow × List Char)
  | 0, _ => none
  | fuel + 1, cs =>
    (parseRow cs).bind (fun p =>
      if p.2.head? = some ',' then
        (parseRowsAux fuel p.2.tail).map (fun ps => (p.1 :: ps.1, ps.2))
      else if p.2.head? = some ']' then some ([p.1], p.2.tail)
      else none)

/-- A whole table; the input must be consumed exactly, as `read_json` demands:
anything that is not a `[...]` list of row objects is a parse error (`none`). -/
def parseTable (cs : List Char) : Option (List JRow) :=
  if cs.head? = some '[' then
    if cs.tail.head? = some ']' then
      if cs.tail.tail = [] then some [] else none
    else
      (parseRowsAux (cs.length + 1) cs.tail).bind
        (fun p => if p.2 = [] then some p.1 else none)
  else none

/-- `pd.read_json(io.StringIO(value), orient="records")`. -/
def parseTableStr (s : String) : Option (List JRow) := parseTable s.data

/-- A member whose name and value the nested encoding represents exactly. -/
def CleanPair (p : String × JCell) : Bool := CleanStr p.1 && CleanCell p.2

/-- A row of exactly representable members. -/
def CleanRow (row : JRow) : Bool := row.all CleanPair

/-- A table of exactly representable rows. -/
def CleanTable (t : List JRow) : Bool := t.all CleanRow

theorem parsePair_render {p : String × JCell} (hp : CleanPair p = true)
    {r : List Char} (hr : numBoundary r = true) :
    parsePair (renderPair p ++ r) = some (p, r) := by
  obtain ⟨hs, hc⟩ : CleanStr p.1 = true ∧ CleanCell p.2 = true := by
    simpa [CleanPair, Bool.and_eq_true] using hp
  unfold renderPair renderJStr parsePair
  simp only [List.cons_append, List.append_assoc, List.singleton_append]
  simp only [List.head?_cons, List.tail_cons, if_true]
  rw [escapeJ_clean (CleanStr_spec hs), parseJStrAux_append (CleanStr_spec hs)]
  simp only [Option.some_bind, List.nil_append, List.head?_cons, List.tail_cons, if_true]
  rw [parseJCell_render hc hr]
  simp [strMk_data]

theorem renderPair_head (p : String × JCell) :
    renderPair p = '"' :: ((escapeJ p.1.data ++ ['"']) ++ ':' :: renderJCell p.2) := rfl

theorem renderPairs_length_ge : ∀ row : JRow, row.length ≤ (renderPairs row).length := by
  intro row
  induction row with
  | nil => simp [renderPairs]
  | cons p ps ih =>
    cases ps with
    | nil =>
      simp only [renderPairs, List.length_cons, List.length_nil]
      rw [renderPair_head p]
      simp
    | cons q ps2 =>
      simp only [renderPairs, List.length_cons, List.length_append] at ih ⊢
      rw [renderPair_head p]
      simp only [List.length_cons]
      omega

theorem CleanRow_cons {p : String × JCell} {row : JRow} (h : CleanRow (p :: row) = true) :
    CleanPair p = true ∧ CleanRow row = true := by
  unfold CleanRow at h ⊢
  rw [List.all_cons, Bool.and_eq_true] at h
  exact h

theorem parsePairsAux_render :
    ∀ (row : JRow), row ≠ [] → CleanRow row = true →
      ∀ (r : List Char) (fuel : ℕ), row.length < fuel →
        parsePairsAux fuel (renderPairs row ++ '}' :: r) = some (row, r) := by
  intro row
  induction row with
  | nil => intro h; exact absurd rfl h
  | cons p ps ih =>
    intro _ hclean r fuel hfuel
    obtain ⟨hp, hps⟩ := CleanRow_cons hclean
    cases fuel with
    | zero => omega
    | succ f =>
      cases ps with
      | nil =>
        simp only [renderPairs, parsePairsAux]
        rw [parsePair_render hp (numBoundary_cons (by decide) (by decide) r)]
        simp
      | cons q ps2 =>
        have hlen : (q :: ps2).length < f := by
          simp only [List.length_cons] at hfuel ⊢
          omega
        have hih := ih (by simp) hps r f hlen
        simp only [renderPairs, parsePairsAux]
        rw [List.append_assoc, List.cons_append]
        rw [parsePair_render hp (numBoundary_cons (by decide) (by decide) _)]
        simp only [Option.some_bind, List.head?_cons, List.tail_cons, if_true]
        rw [hih]
        rfl

theorem renderRow_def (row : JRow) :
    renderRow row = '{' :: (renderPairs row ++ ['}']) := rfl

theorem parseRow_render (row : JRow) (hclean : CleanRow row = true) (r : List Char) :
    parseRow (renderRow row ++ r) = some (row, r) := by
  rw [renderRow_def, List.cons_append, List.append_assoc, List.singleton_append]
  unfold parseRow
  simp only [List.head?_cons, List.tail_cons, if_true]
  cases row with
  | nil => simp [renderPairs]
  | cons p ps =>
    have hhead : ∃ t, renderPairs (p :: ps) = '"' :: t := by
      cases ps with
      | nil => exact ⟨_, renderPair_head p⟩
      | cons q ps2 =>
        simp only [renderPairs]
        rw [renderPair_head p]
        exact ⟨_, rfl⟩
    obtain ⟨t, ht⟩ := hhead
    rw [ht]
    simp only [List.cons_append, List.head?_cons]
    rw [if_neg (by decide)]
    rw [← List.cons_append, ← ht]
    apply parsePairsAux_render (p :: ps) (by simp) hclean
    have h1 := renderPairs_length_ge (p :: ps)
    simp only [List.length_cons, List.length_append] at h1 ⊢
    omega

theorem renderRow_length_pos (row : JRow) : 1 ≤ (renderRow row).length := by
  rw [renderRow_def]
  simp

theorem renderRows_length_ge : ∀ t : List JRow, t.length ≤ (renderRows t).length := by
  intro t
  induction t with
  | nil => simp [renderRows]
  | cons row rows ih =>
    cases rows with
    | nil =>
      simp only [renderRows, List.length_cons, List.length_nil]
      have := renderRow_length_pos row
      omega
    | cons row2 rows2 =>
      simp only [renderRows, List.length_cons, List.length_append] at ih ⊢
      have := renderRow_length_pos row
      omega

theorem CleanTable_cons {row : JRow} {t : List JRow} (h : CleanTable (row :: t) = true) :
    CleanRow row = true ∧ CleanTable t = true := by
  unfold CleanTable at h ⊢
  rw [List.all_cons, Bool.and_eq_true] at h
  exact h

theorem parseRowsAux_render :
    ∀ (t : List JRow), t ≠ [] → CleanTable t = true →
      ∀ (r : List Char) (fuel : ℕ), t.length < fuel →
        parseRowsAux fuel (renderRows t ++ ']' :: r) = some (t, r) := by
  intro t
  induction t with
  | nil => intro h; exact absurd rfl h
  | cons row rows ih =>
    intro _ hclean r fuel hfuel
    obtain ⟨hrow, hrows⟩ := CleanTable_cons hclean
    cases fuel with
    | zero => omega
    | succ f =>
      cases rows with
      | nil =>
        simp only [renderRows, parseRowsAux]
        rw [parseRow_render row hrow]
        simp
      | cons row2 rows2 =>
        have hlen : (row2 :: rows2).length < f := by
          simp only [List.length_cons] at hfuel ⊢
          omega
        have hih := ih (by simp) hrows r f hlen
        simp only [renderRows, parseRowsAux]
        rw [List.append_assoc, List.cons_append]
        rw [parseRow_render row hrow]
        simp only [Option.some_bind, List.head?_cons, List.tail_cons, if_true]
        rw [hih]
        rfl

theorem parseTable_render (t : List JRow) (hclean : CleanTable t = true) :
    parseTable (renderTable t) = some t := by
  unfold renderTable parseTable
  simp only [List.head?_cons, List.tail_cons, if_true]
  cases t with
  | nil => simp [renderRows]
  | cons row rows =>
    have hhead : ∃ u, renderRows (row :: rows) = '{' :: u := by
      cases rows with
      | nil => exact ⟨_, renderRow_def row⟩
      | cons row2 rows2 =>
        simp only [renderRows]
        rw [renderRow_def row]
        exact ⟨_, rfl⟩
    obtain ⟨u, hu⟩ := hhead
    rw [hu]
    simp only [List.cons_append, List.head?_cons]
    rw [if_neg (by decide)]
    rw [← List.cons_append, ← hu]
    rw [parseRowsAux_render (row :: rows) (by simp) hclean [] _ ?_]
    · rfl
    · have h1 := renderRows_length_ge (row :: rows)
      simp only [List.length_cons, List.length_append] at h1 ⊢
      omega

/-- Round trip of the nested table encoding: a clean table re-reads exactly. -/
theorem parseTableStr_renderTableStr {t : List JRow} (hclean : CleanTable t = true) :
    parseTableStr (renderTableStr t) = some t := by
  unfold parseTableStr renderTableStr
  exact parseTable_render t hclean

/-!
The outer CSV layer, as pandas `to_csv` / `read_csv` handle the snapshot:
fields containing a comma, quote or line break are quoted, quotes are doubled,
rows end with a newline.
-/

/-- Does the field need CSV quoting? -/
def needsQuote (s : List Char) : Bool :=
  s.any (fun c => c == ',' || c == '"' || c == '\n' || c == '\r')

/-- Double every quote of a quoted field's body. -/
def escC (s : List Char) : List Char :=
  s.flatMap (fun c => if c = '"' then ['"', '"'] else [c])

/-- One CSV field, quoted exactly when needed. -/
def writeField (s : String) : List Char :=
  if needsQuote s.data then '"' :: (escC s.data ++ ['"']) else s.data

/-- One CSV record: fields joined by commas. -/
def writeRowCsv : List String → List Char
  | [] => []
  | [f] => writeField f
  | f :: fs => writeField f ++ ',' :: writeRowCsv fs

/-- A CSV file: one line per record, each terminated by a newline. -/
def writeCsv (rows : List (List String)) : String :=
  String.mk (rows.flatMap (fun row => writeRowCsv row ++ ['\n']))

/-- An unquoted field: everything up to the next comma or newline. -/
def parseFieldUnq : List Char → List Char × List Char
  | [] => ([], [])
  | c :: cs =>
    if c = ',' ∨ c = '\n' then ([], c :: cs)
    else ((parseFieldUnq cs).1.cons c, (parseFieldUnq cs).2)

/-- The body of a quoted field after its opening quote; `""` is a literal
quote, a lone quote ends the field. -/
def parseFieldQ : List Char → Option (List Char × List Char)
  | [] => none
  | c :: cs =>
    if c = '"' then
      match cs with
      | c2 :: cs2 =>
        if c2 = '"' then (parseFieldQ cs2).map (fun p => ('"' :: p.1, p.2))
        else some ([], c2 :: cs2)
      | [] => some ([], [])
    else (parseFieldQ cs).map (fun p => (c :: p.1, p.2))

/-- One CSV field, dispatching on an opening quote. -/
def parseField (cs : List Char) : Option (String × List Char) :=
  if cs.head? = some '"' then
    (parseFieldQ cs.tail).map (fun p => (String.mk p.1, p.2))
  else some (String.mk (parseFieldUnq cs).1, (parseFieldUnq cs).2)

/-- The fields of one record, consuming the terminating newline. -/
def parseFieldsAux : ℕ → List Char → Option (List String × List Char)
  | 0, _ => none
  | fuel + 1, cs =>
    (parseField cs).bind (fun p =>
      if p.2.head? = some ',' then
        (parseFieldsAux fuel p.2.tail).map (fun ps => (p.1 :: ps.1, ps.2))
      else if p.2.head? = some '\n' then some ([p.1], p.2.tail)
      else none)

/-- All records of the file. -/
def parseCsvAux : ℕ → List Char → Option (List (List String))
  | 0, _ => none
  | fuel + 1, cs =>
    if cs = [] then some []
    else
      (parseFieldsAux (cs.length + 1) cs).bind (fun p =>
        (parseCsvAux fuel p.2).map (fun rows => p.1 :: rows))

/-- `pd.read_csv` on the snapshot text: the list of records, or `none` on
malformed input. -/
def parseCsv (s : String) : Option (List (List String)) :=
  parseCsvAux (s.data.length + 1) s.data

theorem parseFieldUnq_append {s : List Char} (h : ∀ c ∈ s, ¬(c = ',' ∨ c = '\n'))
    {d : Char} (hd : d = ',' ∨ d = '\n') (r : List Char) :
    parseFieldUnq (s ++ d :: r) = (s, d :: r) := by
  induction s with
  | nil =>
    rw [List.nil_append]
    unfold parseFieldUnq
    rw [if_pos hd]
  | cons c cs ih =>
    have hc := h c (List.mem_cons_self c cs)
    have hcs := ih (fun x hx => h x (List.mem_cons_of_mem c hx))
    rw [List.cons_append]
    unfold parseFieldUnq
    rw [if_neg hc, hcs]

theorem parseFieldQ_cons (c : Char) (cs : List Char) :
    parseFieldQ (c :: cs) =
      if c = '"' then
        match cs with
        | c2 :: cs2 =>
          if c2 = '"' then (parseFieldQ cs2).map (fun p => ('"' :: p.1, p.2))
          else some ([], c2 :: cs2)
        | [] => some ([], [])
      else (parseFieldQ cs).map (fun p => (c :: p.1, p.2)) := by
  conv_lhs => rw [parseFieldQ.eq_def]

theorem parseFieldQ_quote2 (c2 : Char) (cs2 : List Char) :
    parseFieldQ ('"' :: c2 :: cs2) =
      if c2 = '"' then (parseFieldQ cs2).map (fun p => ('"' :: p.1, p.2))
      else some ([], c2 :: cs2) := by
  rw [parseFieldQ_cons, if_pos rfl]

theorem parseFieldQ_append (s : List Char) {d : Char} (hd : d ≠ '"') (r : List Char) :
    parseFieldQ (escC s ++ '"' :: d :: r) = some (s, d :: r) := by
  induction s with
  | nil =>
    rw [show escC [] = [] from rfl, List.nil_append, parseFieldQ_quote2, if_neg hd]
  | cons c cs ih =>
    by_cases hc : c = '"'
    · subst hc
      have he : escC ('"' :: cs) = '"' :: '"' :: escC cs := by simp [escC]
      rw [he, List.cons_append, List.cons_append, parseFieldQ_quote2, if_pos rfl, ih]
      rfl
    · have he : escC (c :: cs) = c :: escC cs := by simp [escC, hc]
      rw [he, List.cons_append, parseFieldQ_cons, if_neg hc, ih]
      rfl

theorem needsQuote_false_spec {s : String} (h : needsQuote s.data = false) :
    ∀ c ∈ s.data, c ≠ ',' ∧ c ≠ '"' ∧ c ≠ '\n' ∧ c ≠ '\r' := by
  intro c hc
  unfold needsQuote at h
  rw [List.any_eq_false] at h
  have := h c hc
  simp only [Bool.or_eq_true, beq_iff_eq] at this
  push_neg at this
  exact ⟨this.1.1.1, this.1.1.2, this.1.2, this.2⟩

theorem parseField_writeField (s : String) {d : Char} (hd : d = ',' ∨ d = '\n')
    (r : List Char) : parseField (writeField s ++ d :: r) = some (s, d :: r) := by
  unfold writeField parseField
  by_cases hq : needsQuote s.data = true
  · rw [if_pos hq, List.cons_append]
    simp only [List.head?_cons, List.tail_cons, if_true]
    rw [List.append_assoc, List.singleton_append]
    have hd' : d ≠ '"' := by rcases hd with h | h <;> (subst h; decide)
    rw [parseFieldQ_append s.data hd' r]
    simp [strMk_data]
  · rw [if_neg hq]
    have hq' : needsQuote s.data = false := by
      exact Bool.not_eq_true _ ▸ (Bool.eq_false_iff.mpr hq)
    have hspec := needsQuote_false_spec hq'
    have hdisp : ¬ ((s.data ++ d :: r).head? = some '"') := by
      cases hs : s.data with
      | nil =>
        rw [List.nil_append, List.head?_cons]
        intro he
        rcases hd with h | h <;> (subst h; exact absurd (Option.some_inj.mp he) (by decide))
      | cons c0 cs0 =>
        rw [List.cons_append, List.head?_cons]
        intro he
        have hm : c0 ∈ s.data := by rw [hs]; exact List.mem_cons_self c0 cs0
        exact absurd (Option.some_inj.mp he) (hspec c0 hm).2.1
    rw [if_neg hdisp]
    have hspec' : ∀ c ∈ s.data, ¬(c = ',' ∨ c = '\n') := by
      intro c hc
      have := hspec c hc
      tauto
    rw [parseFieldUnq_append hspec' hd r]

theorem parseFieldsAux_write :
    ∀ (row : List String), row ≠ [] →
      ∀ (r : List Char) (fuel : ℕ), row.length < fuel →
        parseFieldsAux fuel (writeRowCsv row ++ '\n' :: r) = some (row, r) := by
  intro row
  induction row with
  | nil => intro h; exact absurd rfl h
  | cons f fs ih =>
    intro _ r fuel hfuel
    cases fuel with
    | zero => omega
    | succ fl =>
      cases fs with
      | nil =>
        simp only [writeRowCsv, parseFieldsAux]
        rw [parseField_writeField f (Or.inr rfl) r]
        rfl
      | cons f2 fs2 =>
        have hlen : (f2 :: fs2).length < fl := by
          simp only [List.length_cons] at hfuel ⊢
          omega
        have hih := ih (by simp) r fl hlen
        simp only [writeRowCsv, parseFieldsAux]
        rw [List.append_assoc, List.cons_append]
        rw [parseField_writeField f (Or.inl rfl) _]
        simp only [Option.some_bind, List.head?_cons, List.tail_cons, if_true]
        rw [hih]
        rfl

theorem writeRow_length_ge : ∀ row : List String,
    row.length ≤ (writeRowCsv row).length + 1 := by
  intro row
  induction row with
  | nil => simp [writeRowCsv]
  | cons f fs ih =>
    cases fs with
    | nil => simp [writeRowCsv]
    | cons f2 fs2 =>
      simp only [writeRowCsv, List.length_cons, List.length_append] at ih ⊢
      omega

theorem flatRows_length_ge : ∀ rows : List (List String),
    rows.length ≤ (rows.flatMap (fun row => writeRowCsv row ++ ['\n'])).length := by
  intro rows
  induction rows with
  | nil => simp
  | cons row rows2 ih =>
    rw [List.flatMap_cons, List.length_cons, List.length_append, List.length_append]
    have h1 : (['\n'] : List Char).length = 1 := rfl
    omega

theorem parseCsvAux_write :
    ∀ (rows : List (List String)), (∀ row ∈ rows, row ≠ []) →
      ∀ fuel : ℕ, rows.length < fuel →
        parseCsvAux fuel (rows.flatMap (fun row => writeRowCsv row ++ ['\n']))
          = some rows := by
  intro rows
  induction rows with
  | nil =>
    intro _ fuel hfuel
    cases fuel with
    | zero => omega
    | succ fl =>
      rw [List.flatMap_nil]
      simp only [parseCsvAux]
      rw [if_true]
  | cons row rows2 ih =>
    intro hne fuel hfuel
    cases fuel with
    | zero => omega
    | succ fl =>
      have hflat : (row :: rows2).flatMap (fun row => writeRowCsv row ++ ['\n'])
          = writeRowCsv row
            ++ '\n' :: rows2.flatMap (fun row => writeRowCsv row ++ ['\n']) := by
        simp only [List.flatMap_cons, List.append_assoc, List.singleton_append]
      rw [hflat]
      simp only [parseCsvAux]
      rw [if_neg ?hne0]
      case hne0 =>
        intro hemp
        rcases List.append_eq_nil.mp hemp with ⟨_, h2⟩
        simp at h2
      rw [parseFieldsAux_write row (hne row (List.mem_cons_self row rows2)) _ _ ?hfl]
      case hfl =>
        have h1 := writeRow_length_ge row
        simp only [List.length_append, List.length_cons]
        omega
      simp only [Option.some_bind]
      rw [ih (fun x hx => hne x (List.mem_cons_of_mem row hx)) fl ?hfl2]
      case hfl2 =>
        simp only [List.length_cons] at hfuel
        omega
      rfl

/-- Round trip of the CSV layer: `read_csv` recovers exactly the records that
`to_csv` wrote, for records with at least one field. -/
theorem parseCsv_writeCsv (rows : List (List String)) (h : ∀ row ∈ rows, row ≠ []) :
    parseCsv (writeCsv rows) = some rows := by
  unfold parseCsv writeCsv
  rw [show (String.mk (rows.flatMap (fun row => writeRowCsv row ++ ['\n']))).data
      = rows.flatMap (fun row => writeRowCsv row ++ ['\n']) from rfl]
  apply parseCsvAux_write rows h
  have := flatRows_length_ge rows
  omega

/-!
The snapshot record layer: `build_save_df` emits one `Section,Field,Value`
record per parameter plus one per table; `load_save_df` reads them back,
parsing every non-PARAM `Value` as a nested table.  After the CSV round trip
every cell is text, so the write side distinguishes string and numeric
values only until `to_csv` renders them.
-/

/-- A `Value` cell as `build_save_df` stores it: the title and the table
payloads are strings, every other parameter is a (float) number. -/
inductive PVal where
  | s (v : String)
  | n (v : ℚ)
  deriving DecidableEq, Repr

/-- Python's `str()` of the cell, as `to_csv` writes it. -/
def pvalStr : PVal → String
  | .s v => v
  | .n q => String.mk (renderQ q)

/-- A record of the snapshot table before `to_csv`. -/
structure PRec where
  sec : String
  fld : String
  value : PVal
  deriving DecidableEq, Repr

/-- A record of the snapshot table after `read_csv`: all three cells text. -/
structure SRec where
  sec : String
  fld : String
  value : String
  deriving DecidableEq, Repr

/-- Serialization of an ingredient or auxiliary row, as
`ing_df.to_json(orient="records")` lays out its columns. -/
def lineRowToJRow (r : LineRow) : JRow :=
  [("Descripción", .s r.descripcion), ("Cantidad", .n r.cantidad),
   ("Unidad", .s r.unidad), ("Costo unitario (ARS $)", .n r.costo)]

/-- Serialization of a packaging row. -/
def packRowToJRow (r : PackRow) : JRow :=
  [("Descripción", .s r.descripcion), ("Unidades", .n r.unidades),
   ("Costo unitario (ARS $)", .n r.costo)]

/-- `build_save_df(params, ing_df, pack_df, aux_df)`: the PARAM records in
the order of the `out_params` dict, then the three table records. -/
def build_save_df (m : Model) : List PRec :=
  [⟨"PARAM", "Titulo_lote", .s m.titulo⟩,
   ⟨"PARAM", "Volumen_L", .n m.vol_batch⟩,
   ⟨"PARAM", "Bottle_ml", .n m.bottle_ml⟩,
   ⟨"PARAM", "Merma_pct", .n m.loss_pct⟩,
   ⟨"PARAM", "Energia", .n m.energy_cost⟩,
   ⟨"PARAM", "Horas", .n m.lab_hours⟩,
   ⟨"PARAM", "Costo_hora", .n m.lab_rate⟩,
   ⟨"PARAM", "Flete", .n m.flete⟩,
   ⟨"PARAM", "Overhead_pct", .n m.ind_pct⟩,
   ⟨"Ingredientes", "Data", .s (renderTableStr (m.ing.map lineRowToJRow))⟩,
   ⟨"Packaging", "Data", .s (renderTableStr (m.pack.map packRowToJRow))⟩,
   ⟨"Auxiliares", "Data", .s (renderTableStr (m.aux.map lineRowToJRow))⟩]

/-- `csv_df.to_csv(buffer, index=False)`: header row, then one line per record. -/
def to_csv (recs : List PRec) : String :=
  writeCsv (["Section", "Field", "Value"] :: recs.map (fun r => [r.sec, r.fld, pvalStr r.value]))

/-- The full snapshot text the download button serves. -/
def encode (m : Model) : String := to_csv (build_save_df m)

/-- The cell texts `pd.read_csv` converts to NaN by default
(`keep_default_na=True`): its documented `STR_NA_VALUES` list, including the
empty cell. -/
def naTokens : List String :=
  ["", "#N/A", "#N/A N/A", "#NA", "-1.#IND", "-1.#QNAN", "-NaN", "-nan",
   "1.#IND", "1.#QNAN", "<NA>", "N/A", "NA", "NULL", "NaN", "None",
   "n/a", "nan", "null"]

/-- The default NA conversion of one cell: an NA token becomes NaN
(`none`), anything else stays the literal text. -/
def naConvert (s : String) : Option String :=
  if s ∈ naTokens then none else some s

/-- A record of the snapshot table after `read_csv`: each cell is either
text or NaN (`none`), as the NA conversion leaves it. -/
structure NRec where
  sec : Option String
  fld : Option String
  value : Option String
  deriving DecidableEq, Repr

/-- One parsed CSV record after NA conversion; the snapshot table has
exactly three columns. -/
def rowToRec (row : List String) : Except String NRec :=
  match row with
  | [a, b, c] => Except.ok ⟨naConvert a, naConvert b, naConvert c⟩
  | _ => Except.error "columns"

/-- `pd.read_csv(file_up)` on the snapshot: header check plus records, every
data cell passed through the default NA conversion. -/
def read_save_csv (s : String) : Except String (List NRec) :=
  match parseCsv s with
  | none => Except.error "csv"
  | some [] => Except.error "empty"
  | some (hdr :: rows) =>
    if hdr = ["Section", "Field", "Value"] then rows.mapM rowToRec
    else Except.error "header"

/-- `load_save_df(df)`: walk the records; a PARAM record assigns
`params[Field] = Value`, any other record parses `Value` as a nested table
and assigns `tables[Section]`; a payload that fails to parse raises.  Both
dicts are association lists ordered so that `List.lookup` returns the value
of the last record, as Python dict assignment does. -/
def load_save_df : List SRec →
    Except String (List (String × String) × List (String × List JRow))
  | [] => Except.ok ([], [])
  | r :: rs =>
    if r.sec = "PARAM" then
      (load_save_df rs).map (fun acc => (acc.1 ++ [(r.fld, r.value)], acc.2))
    else
      match parseTableStr r.value with
      | some t => (load_save_df rs).map (fun acc => (acc.1, acc.2 ++ [(r.sec, t)]))
      | none => Except.error ("json " ++ r.sec)

/-- `load_save_df` as it runs on `read_csv` output, where any cell may be
NaN.  A NaN Section never equals `"PARAM"` (Python `nan == "PARAM"` is
false), so such a record takes the table branch; there `read_json` on a NaN
Value raises (`io.StringIO(nan)` is a `TypeError`), which the caller's
`except` turns into the error outcome. -/
def load_save_dfN : List NRec →
    Except String (List (Option String × Option String) × List (Option String × List JRow))
  | [] => Except.ok ([], [])
  | r :: rs =>
    if r.sec = some "PARAM" then
      (load_save_dfN rs).map (fun acc => (acc.1 ++ [(r.fld, r.value)], acc.2))
    else
      match r.value with
      | none => Except.error "json nan"
      | some v =>
        match parseTableStr v with
        | some t => (load_save_dfN rs).map (fun acc => (acc.1, acc.2 ++ [(r.sec, t)]))
        | none => Except.error "json"

/-- `float(...)` on a loaded parameter string. -/
def parseFloatStr (s : String) : Option ℚ :=
  (parseQ s.data).bind (fun p => if p.2 = [] then some p.1 else none)

/-- Python `int(...)`: truncation toward zero. -/
def pyint (q : ℚ) : ℤ := q.num.tdiv q.den

/-- `p(name, default)` (source line 120): the loaded value coerced by
`float`, or the default when the key is absent; `none` models the uncaught
`ValueError` when the text is not a number. -/
def getParamQ (params : List (String × String)) (name : String) (deflt : ℚ) : Option ℚ :=
  (List.lookup name params).elim (some deflt) parseFloatStr

/-- `st.number_input(min, max, value)`: rejects an out-of-range default. -/
def numInput (lo hi v : ℚ) : Option ℚ := if lo ≤ v ∧ v ≤ hi then some v else none

/-- The integer-typed `number_input` used for the bottle size. -/
def numInputI (lo hi v : ℤ) : Option ℤ := if lo ≤ v ∧ v ≤ hi then some v else none

/-- Text content of a loaded cell (string cells as-is, numbers as printed). -/
def cellText : JCell → String
  | .s v => v
  | .n q => String.mk (renderQ q)

/-- Numeric content of a loaded cell; text in a numeric column breaks the
column arithmetic. -/
def cellNum : JCell → Option ℚ
  | .n q => some q
  | .s _ => none

/-- One loaded ingredient/auxiliary row: the two numeric columns must exist
and be numeric (their product is summed); the text columns are display-only
and default to empty when absent. -/
def rowToLine (row : JRow) : Option LineRow :=
  (List.lookup "Cantidad" row).bind (fun cq =>
    (cellNum cq).bind (fun q =>
      (List.lookup "Costo unitario (ARS $)" row).bind (fun cc =>
        (cellNum cc).map (fun c =>
          ⟨(List.lookup "Descripción" row).elim "" cellText, q,
           (List.lookup "Unidad" row).elim "" cellText, c⟩))))

/-- One loaded packaging row. -/
def rowToPack (row : JRow) : Option PackRow :=
  (List.lookup "Unidades" row).bind (fun cq =>
    (cellNum cq).bind (fun q =>
      (List.lookup "Costo unitario (ARS $)" row).bind (fun cc =>
        (cellNum cc).map (fun c =>
          ⟨(List.lookup "Descripción" row).elim "" cellText, q, c⟩))))

/-- A loaded ingredient/auxiliary table. -/
def tableToLines (t : List JRow) : Option (List LineRow) := t.mapM rowToLine

/-- A loaded packaging table. -/
def tableToPacks (t : List JRow) : Option (List PackRow) := t.mapM rowToPack

/-- One scalar parameter as the widget layer reads it: the loaded value (or
its default) passed as the `number_input` default with the widget's range. -/
def getParamChecked (params : List (String × String)) (name : String)
    (deflt lo hi : ℚ) : Option ℚ :=
  (getParamQ params name deflt).bind (numInput lo hi)

/-- The bottle size: `int(p("Bottle_ml", 330))` into an integer input. -/
def getBottle (params : List (String × String)) : Option ℤ :=
  (getParamQ params "Bottle_ml" 330).bind (fun b0 => numInputI 250 1000 (pyint b0))

/-- The model the app builds from the decoded snapshot (source lines
116-196): each parameter read through `p(...)` with its default and its
widget range, each table taken from `loaded_tables` or the built-in default. -/
def buildModel (params : List (String × String))
    (tables : List (String × List JRow)) : Option Model := do
  let vol ← getParamChecked params "Volumen_L" 20 1 2000
  let bottle ← getBottle params
  let loss ← getParamChecked params "Merma_pct" 8 0 25
  let energy ← getParamChecked params "Energia" 300 0 10000
  let hours ← getParamChecked params "Horas" 6 0 40
  let rate ← getParamChecked params "Costo_hora" 4000 0 10000
  let fl ← getParamChecked params "Flete" 1000 0 20000
  let pct ← getParamChecked params "Overhead_pct" 10 0 30
  let ing ← (List.lookup "Ingredientes" tables).elim (some default_ingredients) tableToLines
  let pack ← (List.lookup "Packaging" tables).elim (some default_packaging) tableToPacks
  let aux ← (List.lookup "Auxiliares" tables).elim (some default_aux) tableToLines
  pure ⟨(List.lookup "Titulo_lote" params).getD "Lote 20 L",
    vol, (bottle : ℚ), loss, energy, hours, rate, fl, pct, ing, pack, aux⟩

/-- `loaded_params.get("Titulo_lote", "Lote 20 L")` fed to `st.text_input`,
whose default is cast to `str`: a NaN value (an NA token in the saved file)
renders as `str(nan)`, the text `nan`. -/
def getTitleN (params : List (Option String × Option String)) : String :=
  match List.lookup (some "Titulo_lote") params with
  | none => "Lote 20 L"
  | some none => "nan"
  | some (some s) => s

/-- `p(name, default)` on `read_csv` output: a missing key gives the
default; a NaN value survives `float` as NaN, which is no rational — the
widget's `min <= value <= max` validation is false for NaN and the saved
number is not reconstructed either way, so this case is the failure
outcome; any other value is coerced by `float`. -/
def getParamQN (params : List (Option String × Option String)) (name : String)
    (deflt : ℚ) : Option ℚ :=
  match List.lookup (some name) params with
  | none => some deflt
  | some none => none
  | some (some s) => parseFloatStr s

/-- One scalar parameter as the widget layer reads it from `read_csv`
output. -/
def getParamCheckedN (params : List (Option String × Option String))
    (name : String) (deflt lo hi : ℚ) : Option ℚ :=
  (getParamQN params name deflt).bind (numInput lo hi)

/-- The bottle size from `read_csv` output: `int(float(nan))` raises, so a
NaN value is the failure outcome here too. -/
def getBottleN (params : List (Option String × Option String)) : Option ℤ :=
  (getParamQN params "Bottle_ml" 330).bind (fun b0 => numInputI 250 1000 (pyint b0))

/-- `buildModel` on `read_csv` output, where keys, section names and values
may be NaN: the known-name lookups use the text keys, so NaN-keyed entries
are never read. -/
def buildModelN (params : List (Option String × Option String))
    (tables : List (Option String × List JRow)) : Option Model := do
  let vol ← getParamCheckedN params "Volumen_L" 20 1 2000
  let bottle ← getBottleN params
  let loss ← getParamCheckedN params "Merma_pct" 8 0 25
  let energy ← getParamCheckedN params "Energia" 300 0 10000
  let hours ← getParamCheckedN params "Horas" 6 0 40
  let rate ← getParamCheckedN params "Costo_hora" 4000 0 10000
  let fl ← getParamCheckedN params "Flete" 1000 0 20000
  let pct ← getParamCheckedN params "Overhead_pct" 10 0 30
  let ing ← (List.lookup (some "Ingredientes") tables).elim
    (some default_ingredients) tableToLines
  let pack ← (List.lookup (some "Packaging") tables).elim
    (some default_packaging) tableToPacks
  let aux ← (List.lookup (some "Auxiliares") tables).elim
    (some default_aux) tableToLines
  pure ⟨getTitleN params,
    vol, (bottle : ℚ), loss, energy, hours, rate, fl, pct, ing, pack, aux⟩

/-- The whole import path: `read_csv` with its NA conversion,
`load_save_df`, then the widget layer; `none` models the error branch
(nothing from the file is applied). -/
def loadModel (s : String) : Option Model :=
  match read_save_csv s with
  | Except.error _ => none
  | Except.ok recs =>
    match load_save_dfN recs with
    | Except.error _ => none
    | Except.ok pt => buildModelN pt.1 pt.2

theorem load_save_df_nil : load_save_df [] = Except.ok ([], []) := rfl

theorem load_save_df_cons (r : SRec) (rs : List SRec) :
    load_save_df (r :: rs) =
      if r.sec = "PARAM" then
        (load_save_df rs).map (fun acc => (acc.1 ++ [(r.fld, r.value)], acc.2))
      else
        match parseTableStr r.value with
        | some t => (load_save_df rs).map (fun acc => (acc.1, acc.2 ++ [(r.sec, t)]))
        | none => Except.error ("json " ++ r.sec) := by
  conv_lhs => rw [load_save_df.eq_def]

theorem load_save_df_cons_param {r : SRec} (h : r.sec = "PARAM") (rs : List SRec) :
    load_save_df (r :: rs) =
      (load_save_df rs).map (fun acc => (acc.1 ++ [(r.fld, r.value)], acc.2)) := by
  rw [load_save_df_cons, if_pos h]

theorem load_save_df_cons_table {r : SRec} {t : List JRow} (h : ¬ r.sec = "PARAM")
    (ht : parseTableStr r.value = some t) (rs : List SRec) :
    load_save_df (r :: rs) =
      (load_save_df rs).map (fun acc => (acc.1, acc.2 ++ [(r.sec, t)])) := by
  rw [load_save_df_cons, if_neg h, ht]

theorem load_save_df_cons_bad {r : SRec} (h : ¬ r.sec = "PARAM")
    (ht : parseTableStr r.value = none) (rs : List SRec) :
    load_save_df (r :: rs) = Except.error ("json " ++ r.sec) := by
  rw [load_save_df_cons, if_neg h, ht]

/-- A record whose payload does not parse makes the whole decode fail. -/
theorem load_save_df_error_of_bad : ∀ recs : List SRec,
    (∃ r ∈ recs, r.sec ≠ "PARAM" ∧ parseTableStr r.value = none) →
    ∃ e, load_save_df recs = Except.error e := by
  intro recs
  induction recs with
  | nil =>
    rintro ⟨r, hr, -⟩
    exact absurd hr (List.not_mem_nil r)
  | cons r rs ih =>
    rintro ⟨r0, hr0, hsec, hbad⟩
    rcases List.mem_cons.mp hr0 with rfl | hmem
    · exact ⟨_, load_save_df_cons_bad hsec hbad rs⟩
    · obtain ⟨e, he⟩ := ih ⟨r0, hmem, hsec, hbad⟩
      by_cases hp : r.sec = "PARAM"
      · exact ⟨e, by rw [load_save_df_cons_param hp, he]; rfl⟩
      · cases hpt : parseTableStr r.value with
        | none => exact ⟨_, load_save_df_cons_bad hp hpt rs⟩
        | some t => exact ⟨e, by rw [load_save_df_cons_table hp hpt, he]; rfl⟩

/-- C5: a record table in which some non-PARAM record's payload fails to
parse makes `load_save_df` raise (a catchable `Except.error`), and the decode
then produces no `(params, tables)` result at all — nothing is applied, so
whatever state the caller held is untouched. -/
theorem c5_malformed_aborts (recs : List SRec)
    (h : ∃ r ∈ recs, r.sec ≠ "PARAM" ∧ parseTableStr r.value = none) :
    (∃ e, load_save_df recs = Except.error e) ∧
    ∀ params tables, load_save_df recs ≠ Except.ok (params, tables) := by
  obtain ⟨e, he⟩ := load_save_df_error_of_bad recs h
  refine ⟨⟨e, he⟩, fun params tables hok => ?_⟩
  rw [he] at hok
  exact Except.noConfusion hok

/-- Witness for C5: a snapshot whose `Ingredientes` payload is the
non-table text `xx`. -/
theorem c5_malformed_aborts_witness :
    (∃ e, load_save_df [⟨"Ingredientes", "Data", "xx"⟩] = Except.error e) ∧
    ∀ params tables,
      load_save_df [⟨"Ingredientes", "Data", "xx"⟩] ≠ Except.ok (params, tables) :=
  c5_malformed_aborts _
    ⟨⟨"Ingredientes", "Data", "xx"⟩, List.mem_cons_self _ _, by decide, by decide⟩

/-- The section names the decoder's consumers know. -/
def knownSections : List String := ["PARAM", "Ingredientes", "Packaging", "Auxiliares"]

/-- An arbitrary rewrite of the `Field` cell of every non-PARAM record. -/
def patchField (g : SRec → String) (r : SRec) : SRec :=
  if r.sec = "PARAM" then r else { r with fld := g r }

theorem buildModel_tables_congr (p : List (String × String))
    {t1 t2 : List (String × List JRow)}
    (h1 : List.lookup "Ingredientes" t1 = List.lookup "Ingredientes" t2)
    (h2 : List.lookup "Packaging" t1 = List.lookup "Packaging" t2)
    (h3 : List.lookup "Auxiliares" t1 = List.lookup "Auxiliares" t2) :
    buildModel p t1 = buildModel p t2 := by
  unfold buildModel
  rw [h1, h2, h3]

theorem lookup_cons_of_bne {β : Type} {k a : String} (h : (k == a) = false)
    (v : β) (l : List (String × β)) :
    List.lookup k ((a, v) :: l) = List.lookup k l := by
  simp [List.lookup, h]

/-- C10: the `Field` cell of a non-PARAM record is ignored (rewriting it
arbitrarily changes nothing about the decode); an unknown-section record is
still parsed, so an unparsable payload there aborts the whole decode; and an
unknown-section table is never read when the model is built. -/
theorem c10_field_ignored_unknown_parsed (recs : List SRec) (g : SRec → String)
    (p : List (String × String)) (name : String) (t : List JRow)
    (rest : List (String × List JRow)) (hname : name ∉ knownSections) :
    load_save_df (recs.map (patchField g)) = load_save_df recs ∧
    ((∃ r ∈ recs, r.sec ∉ knownSections ∧ parseTableStr r.value = none) →
      ∃ e, load_save_df recs = Except.error e) ∧
    buildModel p ((name, t) :: rest) = buildModel p rest := by
  refine ⟨?_, ?_, ?_⟩
  · induction recs with
    | nil => rfl
    | cons r rs ih =>
      rw [List.map_cons]
      by_cases hp : r.sec = "PARAM"
      · have hr : patchField g r = r := by unfold patchField; rw [if_pos hp]
        rw [hr, load_save_df_cons_param hp (rs.map (patchField g)),
          load_save_df_cons_param hp rs, ih]
      · have hsec : (patchField g r).sec = r.sec := by
          unfold patchField
          rw [if_neg hp]
        have hval : (patchField g r).value = r.value := by
          unfold patchField
          rw [if_neg hp]
        have hp' : ¬ (patchField g r).sec = "PARAM" := by rw [hsec]; exact hp
        cases hpt : parseTableStr r.value with
        | none =>
          rw [load_save_df_cons_bad hp' (by rw [hval]; exact hpt) (rs.map (patchField g)),
            load_save_df_cons_bad hp hpt rs, hsec]
        | some tb =>
          rw [load_save_df_cons_table hp' (by rw [hval]; exact hpt) (rs.map (patchField g)),
            load_save_df_cons_table hp hpt rs, ih, hsec]
  · intro hbad
    apply load_save_df_error_of_bad recs
    obtain ⟨r, hr, hunk, hnone⟩ := hbad
    refine ⟨r, hr, ?_, hnone⟩
    intro hp
    exact hunk (by rw [hp]; exact List.mem_cons_self _ _)
  · have hne : ∀ s : String, s ∈ knownSections → (s == name) = false := by
      intro s hs
      rw [beq_eq_false_iff_ne]
      intro he
      exact hname (he ▸ hs)
    exact buildModel_tables_congr p
      (lookup_cons_of_bne (hne "Ingredientes" (by decide)) t rest)
      (lookup_cons_of_bne (hne "Packaging" (by decide)) t rest)
      (lookup_cons_of_bne (hne "Auxiliares" (by decide)) t rest)

/-- Witness for C10 at a concrete unknown-section snapshot. -/
theorem c10_field_ignored_unknown_parsed_witness :
    load_save_df ([⟨"Custom", "Data", "xx"⟩].map (patchField (fun _ => "X")))
      = load_save_df [⟨"Custom", "Data", "xx"⟩] ∧
    ((∃ r ∈ [(⟨"Custom", "Data", "xx"⟩ : SRec)],
        r.sec ∉ knownSections ∧ parseTableStr r.value = none) →
      ∃ e, load_save_df [⟨"Custom", "Data", "xx"⟩] = Except.error e) ∧
    buildModel [] [("Custom", [])] = buildModel [] [] :=
  c10_field_ignored_unknown_parsed [⟨"Custom", "Data", "xx"⟩] (fun _ => "X")
    [] "Custom" [] [] (by decide)

theorem lookup_append {β : Type} (k : String) (l1 l2 : List (String × β)) :
    List.lookup k (l1 ++ l2) = (List.lookup k l1).or (List.lookup k l2) := by
  induction l1 with
  | nil =>
    rw [List.nil_append]
    simp [List.lookup]
  | cons p l1' ih =>
    obtain ⟨a, b⟩ := p
    rw [List.cons_append]
    cases hk : (k == a) with
    | true => simp [List.lookup, hk]
    | false => simp [List.lookup, hk, ih]

/-- The `Value` of the last PARAM record carrying the key `k`. -/
def lastParamValue (recs : List SRec) (k : String) : Option String :=
  (recs.reverse.find? (fun r => r.sec == "PARAM" && r.fld == k)).map (fun r => r.value)

/-- The `Value` of the last record carrying the section `s`. -/
def lastSectionValue (recs : List SRec) (s : String) : Option String :=
  (recs.reverse.find? (fun r => r.sec == s)).map (fun r => r.value)

/-- C9: on a well-formed snapshot (every non-PARAM payload parses) the decode
succeeds even in the presence of duplicate PARAM keys or duplicate sections,
and every lookup returns the value of the last record in file order, the
earlier ones being silently discarded. -/
theorem c9_duplicates_last_wins : ∀ recs : List SRec,
    (∀ r ∈ recs, r.sec ≠ "PARAM" → parseTableStr r.value ≠ none) →
    ∃ params tables, load_save_df recs = Except.ok (params, tables) ∧
      (∀ k, List.lookup k params = lastParamValue recs k) ∧
      (∀ s, s ≠ "PARAM" →
        List.lookup s tables = (lastSectionValue recs s).bind parseTableStr) := by
  intro recs
  induction recs with
  | nil =>
    intro _
    exact ⟨[], [], rfl, fun k => rfl, fun s _ => rfl⟩
  | cons r rs ih =>
    intro hwf
    obtain ⟨params, tables, hok, hp, ht⟩ :=
      ih (fun x hx hxs => hwf x (List.mem_cons_of_mem r hx) hxs)
    by_cases hsec : r.sec = "PARAM"
    · refine ⟨params ++ [(r.fld, r.value)], tables, ?_, ?_, ?_⟩
      · rw [load_save_df_cons_param hsec, hok]
        rfl
      · intro k
        rw [lookup_append, hp k]
        unfold lastParamValue
        rw [List.reverse_cons, List.find?_append]
        cases hfind : List.find? (fun x => x.sec == "PARAM" && x.fld == k) rs.reverse with
        | some r1 => simp [hfind]
        | none =>
          simp only [hfind, Option.none_or, Option.map_none', Option.none_or]
          have hpb : (r.sec == "PARAM") = true := by
            rw [beq_iff_eq]
            exact hsec
          by_cases hk : k = r.fld
          · simp [List.find?, List.lookup, hpb, hk]
          · have h1 : (k == r.fld) = false := by
              rw [beq_eq_false_iff_ne]
              exact hk
            have h2 : (r.fld == k) = false := by
              rw [beq_eq_false_iff_ne]
              exact fun he => hk he.symm
            simp [List.find?, List.lookup, hpb, h1, h2]
      · intro s hs
        rw [ht s hs]
        unfold lastSectionValue
        rw [List.reverse_cons, List.find?_append]
        have hno : List.find? (fun x => x.sec == s) [r] = none := by
          have : (r.sec == s) = false := by
            rw [beq_eq_false_iff_ne, hsec]
            exact fun he => hs he.symm
          simp [List.find?, this]
        rw [hno, Option.or_none]
    · cases hpt : parseTableStr r.value with
      | none => exact absurd hpt (hwf r (List.mem_cons_self r rs) hsec)
      | some tb =>
        refine ⟨params, tables ++ [(r.sec, tb)], ?_, ?_, ?_⟩
        · rw [load_save_df_cons_table hsec hpt, hok]
          rfl
        · intro k
          rw [hp k]
          unfold lastParamValue
          rw [List.reverse_cons, List.find?_append]
          have hno : List.find? (fun x => x.sec == "PARAM" && x.fld == k) [r] = none := by
            have : (r.sec == "PARAM") = false := by
              rw [beq_eq_false_iff_ne]
              exact hsec
            simp [List.find?, this]
          rw [hno, Option.or_none]
        · intro s hs
          rw [lookup_append, ht s hs]
          unfold lastSectionValue
          rw [List.reverse_cons, List.find?_append]
          cases hfind : List.find? (fun x => x.sec == s) rs.reverse with
          | some r1 =>
            have hmem : r1 ∈ rs := by
              have := List.mem_of_find?_eq_some hfind
              exact List.mem_reverse.mp this
            have hr1s : r1.sec = s := by
              have := List.find?_some hfind
              rwa [beq_iff_eq] at this
            have hr1p : r1.sec ≠ "PARAM" := by
              rw [hr1s]
              exact hs
            cases hpt1 : parseTableStr r1.value with
            | none => exact absurd hpt1 (hwf r1 (List.mem_cons_of_mem r hmem) hr1p)
            | some t1 => simp [hfind, hpt1]
          | none =>
            simp only [hfind, Option.map_none', Option.none_bind, Option.none_or]
            by_cases hrs : s = r.sec
            · have hb1 : (s == r.sec) = true := by
                rw [beq_iff_eq]
                exact hrs
              have hb2 : (r.sec == s) = true := by
                rw [beq_iff_eq]
                exact hrs.symm
              simp [List.find?, List.lookup, hb1, hb2, hpt]
            · have hb1 : (s == r.sec) = false := by
                rw [beq_eq_false_iff_ne]
                exact hrs
              have hb2 : (r.sec == s) = false := by
                rw [beq_eq_false_iff_ne]
                exact fun he => hrs he.symm
              simp [List.find?, List.lookup, hb1, hb2]

/-- Witness for C9: a snapshot with a duplicated PARAM key and a duplicated
`Packaging` section. -/
theorem c9_duplicates_last_wins_witness :
    ∃ params tables,
      load_save_df
        [⟨"PARAM", "Volumen_L", "20"⟩, ⟨"PARAM", "Volumen_L", "25"⟩,
         ⟨"Packaging", "Data", "[]"⟩, ⟨"Packaging", "Data", "[\x7b\"a\":\"b\"\x7d]"⟩]
        = Except.ok (params, tables) ∧
      (∀ k, List.lookup k params = lastParamValue
        [⟨"PARAM", "Volumen_L", "20"⟩, ⟨"PARAM", "Volumen_L", "25"⟩,
         ⟨"Packaging", "Data", "[]"⟩, ⟨"Packaging", "Data", "[\x7b\"a\":\"b\"\x7d]"⟩] k) ∧
      (∀ s, s ≠ "PARAM" →
        List.lookup s tables = (lastSectionValue
          [⟨"PARAM", "Volumen_L", "20"⟩, ⟨"PARAM", "Volumen_L", "25"⟩,
           ⟨"Packaging", "Data", "[]"⟩, ⟨"Packaging", "Data", "[\x7b\"a\":\"b\"\x7d]"⟩] s).bind
          parseTableStr) :=
  c9_duplicates_last_wins _ (by decide)

theorem parseFloatStr_renderQ {q : ℚ} (h : CleanQ q = true) :
    parseFloatStr (String.mk (renderQ q)) = some q := by
  unfold parseFloatStr
  rw [show (String.mk (renderQ q)).data = renderQ q from rfl]
  rw [show renderQ q = renderQ q ++ [] from (List.append_nil _).symm]
  rw [parseQ_renderQ h (by rfl)]
  rfl

theorem CleanQ_of_den_one {q : ℚ} (h : q.den = 1) : CleanQ q = true := by
  unfold CleanQ decExp
  rw [show (65 : ℕ) = 64 + 1 from rfl, List.range_succ_eq_map]
  rw [List.find?_cons_of_pos _ (by simp [h])]
  rfl

theorem pyint_den_one {q : ℚ} (h : q.den = 1) : pyint q = q.num := by
  unfold pyint
  rw [h, Nat.cast_one, Int.tdiv_one]

theorem rowToLine_lineRow (r : LineRow) : rowToLine (lineRowToJRow r) = some r := rfl

theorem rowToPack_packRow (r : PackRow) : rowToPack (packRowToJRow r) = some r := rfl

theorem tableToLines_map (l : List LineRow) :
    tableToLines (l.map lineRowToJRow) = some l := by
  unfold tableToLines
  induction l with
  | nil => rfl
  | cons r rs ih =>
    rw [List.map_cons, List.mapM_cons, rowToLine_lineRow, ih]
    rfl

theorem tableToPacks_map (l : List PackRow) :
    tableToPacks (l.map packRowToJRow) = some l := by
  unfold tableToPacks
  induction l with
  | nil => rfl
  | cons r rs ih =>
    rw [List.map_cons, List.mapM_cons, rowToPack_packRow, ih]
    rfl

/-- A record as it comes back from `read_csv`: every cell NA-converted. -/
def toNRec (r : PRec) : NRec :=
  ⟨naConvert r.sec, naConvert r.fld, naConvert (pvalStr r.value)⟩

/-- The params dict after decoding `encode m`, ordered for last-wins lookup;
only the free-text title can be an NA token, every other cell is a decimal
numeral or a known name. -/
def paramsOfN (m : Model) : List (Option String × Option String) :=
  [(some "Overhead_pct", some (String.mk (renderQ m.ind_pct))),
   (some "Flete", some (String.mk (renderQ m.flete))),
   (some "Costo_hora", some (String.mk (renderQ m.lab_rate))),
   (some "Horas", some (String.mk (renderQ m.lab_hours))),
   (some "Energia", some (String.mk (renderQ m.energy_cost))),
   (some "Merma_pct", some (String.mk (renderQ m.loss_pct))),
   (some "Bottle_ml", some (String.mk (renderQ m.bottle_ml))),
   (some "Volumen_L", some (String.mk (renderQ m.vol_batch))),
   (some "Titulo_lote", naConvert m.titulo)]

/-- The tables dict after decoding `encode m`. -/
def tablesOfN (m : Model) : List (Option String × List JRow) :=
  [(some "Auxiliares", m.aux.map lineRowToJRow),
   (some "Packaging", m.pack.map packRowToJRow),
   (some "Ingredientes", m.ing.map lineRowToJRow)]

theorem renderQnum_digitish (q : ℚ) :
    ∀ c ∈ renderQnum q, c.isDigit = true ∨ c = '.' := by
  intro c hc
  cases h : decExp q with
  | none =>
    rw [renderQnum_eq_none h] at hc
    simp at hc
    subst hc
    left
    decide
  | some k =>
    rw [renderQnum_eq_some h] at hc
    split at hc
    · exact Or.inl (renderNat_digits _ c hc)
    · rcases List.mem_append.1 hc with h1 | h1
      · exact Or.inl (renderNat_digits _ c h1)
      · rcases List.mem_cons.1 h1 with rfl | h2
        · exact Or.inr rfl
        · exact Or.inl (renderPad_digits _ _ c h2)

theorem renderQ_digitish (q : ℚ) :
    ∀ c ∈ renderQ q, c.isDigit = true ∨ c = '.' ∨ c = '-' := by
  intro c hc
  unfold renderQ at hc
  split at hc
  · rcases List.mem_cons.1 hc with rfl | h1
    · exact Or.inr (Or.inr rfl)
    · rcases renderQnum_digitish _ c h1 with h | h
      · exact Or.inl h
      · exact Or.inr (Or.inl h)
  · rcases renderQnum_digitish _ c hc with h | h
    · exact Or.inl h
    · exact Or.inr (Or.inl h)

theorem renderQnum_ne_nil (q : ℚ) : renderQnum q ≠ [] := by
  cases h : decExp q with
  | none =>
    rw [renderQnum_eq_none h]
    simp
  | some k =>
    rw [renderQnum_eq_some h]
    split
    · exact renderNat_ne_nil _
    · intro hemp
      exact renderNat_ne_nil _ (List.append_eq_nil.mp hemp).1

theorem renderQ_ne_nil (q : ℚ) : renderQ q ≠ [] := by
  unfold renderQ
  split
  · simp
  · exact renderQnum_ne_nil q

/-- Every NA token is empty or holds a character a decimal numeral never
contains. -/
theorem naTokens_alien : ∀ s ∈ naTokens,
    s = "" ∨ ∃ c ∈ s.data, ¬(c.isDigit = true ∨ c = '.' ∨ c = '-') := by
  decide

/-- A nonempty all-numeral text is no NA token, so it survives conversion. -/
theorem naConvert_digitish {l : List Char} (hne : l ≠ [])
    (hcl : ∀ c ∈ l, c.isDigit = true ∨ c = '.' ∨ c = '-') :
    naConvert (String.mk l) = some (String.mk l) := by
  unfold naConvert
  rw [if_neg]
  intro hmem
  rcases naTokens_alien _ hmem with h0 | ⟨c, hc, hcn⟩
  · apply hne
    have : (String.mk l).data = ("" : String).data := by rw [h0]
    exact this
  · exact hcn (hcl c hc)

theorem naConvert_renderQ (q : ℚ) :
    naConvert (String.mk (renderQ q)) = some (String.mk (renderQ q)) :=
  naConvert_digitish (renderQ_ne_nil q) (renderQ_digitish q)

/-- No NA token opens with `[`, so a serialized table survives conversion. -/
theorem naConvert_renderTableStr (t : List JRow) :
    naConvert (renderTableStr t) = some (renderTableStr t) := by
  unfold naConvert
  rw [if_neg]
  intro hmem
  have halien : ∀ s ∈ naTokens, s.data.head? ≠ some '[' := by decide
  apply halien _ hmem
  show (renderTable t).head? = some '['
  rfl

theorem load_save_dfN_nil : load_save_dfN [] = Except.ok ([], []) := rfl

theorem load_save_dfN_cons (r : NRec) (rs : List NRec) :
    load_save_dfN (r :: rs) =
      if r.sec = some "PARAM" then
        (load_save_dfN rs).map (fun acc => (acc.1 ++ [(r.fld, r.value)], acc.2))
      else
        match r.value with
        | none => Except.error "json nan"
        | some v =>
          match parseTableStr v with
          | some t => (load_save_dfN rs).map (fun acc => (acc.1, acc.2 ++ [(r.sec, t)]))
          | none => Except.error "json" := by
  conv_lhs => rw [load_save_dfN.eq_def]

theorem load_save_dfN_cons_param {r : NRec} (h : r.sec = some "PARAM") (rs : List NRec) :
    load_save_dfN (r :: rs) =
      (load_save_dfN rs).map (fun acc => (acc.1 ++ [(r.fld, r.value)], acc.2)) := by
  rw [load_save_dfN_cons, if_pos h]

theorem load_save_dfN_cons_table {r : NRec} {v : String} {t : List JRow}
    (h : ¬ r.sec = some "PARAM") (hv : r.value = some v)
    (ht : parseTableStr v = some t) (rs : List NRec) :
    load_save_dfN (r :: rs) =
      (load_save_dfN rs).map (fun acc => (acc.1, acc.2 ++ [(r.sec, t)])) := by
  rw [load_save_dfN_cons, if_neg h, hv]
  show (match parseTableStr v with
    | some t => Except.map (fun acc => (acc.1, acc.2 ++ [(r.sec, t)])) (load_save_dfN rs)
    | none => Except.error "json") =
    Except.map (fun acc => (acc.1, acc.2 ++ [(r.sec, t)])) (load_save_dfN rs)
  rw [ht]

theorem load_save_dfN_build (m : Model)
    (h1 : CleanTable (m.ing.map lineRowToJRow) = true)
    (h2 : CleanTable (m.pack.map packRowToJRow) = true)
    (h3 : CleanTable (m.aux.map lineRowToJRow) = true) :
    load_save_dfN ((build_save_df m).map toNRec)
      = Except.ok (paramsOfN m, tablesOfN m) := by
  unfold build_save_df toNRec
  simp only [List.map_cons, List.map_nil, pvalStr]
  rw [show naConvert "PARAM" = some "PARAM" from by decide,
    show naConvert "Titulo_lote" = some "Titulo_lote" from by decide,
    show naConvert "Volumen_L" = some "Volumen_L" from by decide,
    show naConvert "Bottle_ml" = some "Bottle_ml" from by decide,
    show naConvert "Merma_pct" = some "Merma_pct" from by decide,
    show naConvert "Energia" = some "Energia" from by decide,
    show naConvert "Horas" = some "Horas" from by decide,
    show naConvert "Costo_hora" = some "Costo_hora" from by decide,
    show naConvert "Flete" = some "Flete" from by decide,
    show naConvert "Overhead_pct" = some "Overhead_pct" from by decide,
    show naConvert "Ingredientes" = some "Ingredientes" from by decide,
    show naConvert "Packaging" = some "Packaging" from by decide,
    show naConvert "Auxiliares" = some "Auxiliares" from by decide,
    show naConvert "Data" = some "Data" from by decide]
  rw [naConvert_renderQ m.vol_batch, naConvert_renderQ m.bottle_ml,
    naConvert_renderQ m.loss_pct, naConvert_renderQ m.energy_cost,
    naConvert_renderQ m.lab_hours, naConvert_renderQ m.lab_rate,
    naConvert_renderQ m.flete, naConvert_renderQ m.ind_pct]
  rw [show naConvert (renderTableStr (m.ing.map lineRowToJRow))
      = some (renderTableStr (m.ing.map lineRowToJRow))
    from naConvert_renderTableStr _]
  rw [show naConvert (renderTableStr (m.pack.map packRowToJRow))
      = some (renderTableStr (m.pack.map packRowToJRow))
    from naConvert_renderTableStr _]
  rw [show naConvert (renderTableStr (m.aux.map lineRowToJRow))
      = some (renderTableStr (m.aux.map lineRowToJRow))
    from naConvert_renderTableStr _]
  rw [load_save_dfN_cons_param rfl, load_save_dfN_cons_param rfl,
    load_save_dfN_cons_param rfl, load_save_dfN_cons_param rfl,
    load_save_dfN_cons_param rfl, load_save_dfN_cons_param rfl,
    load_save_dfN_cons_param rfl, load_save_dfN_cons_param rfl,
    load_save_dfN_cons_param rfl]
  rw [load_save_dfN_cons_table
    (fun h => absurd h (show ¬ ((some "Ingredientes" : Option String) = some "PARAM") by decide))
    rfl (parseTableStr_renderTableStr h1)]
  rw [load_save_dfN_cons_table
    (fun h => absurd h (show ¬ ((some "Packaging" : Option String) = some "PARAM") by decide))
    rfl (parseTableStr_renderTableStr h2)]
  rw [load_save_dfN_cons_table
    (fun h => absurd h (show ¬ ((some "Auxiliares" : Option String) = some "PARAM") by decide))
    rfl (parseTableStr_renderTableStr h3)]
  rw [load_save_dfN_nil]
  rfl

theorem mapM_rowToRec : ∀ recs : List PRec,
    (recs.map (fun r => [r.sec, r.fld, pvalStr r.value])).mapM rowToRec
      = Except.ok (recs.map toNRec) := by
  intro recs
  induction recs with
  | nil => rfl
  | cons r rs ih =>
    rw [List.map_cons, List.mapM_cons]
    rw [show rowToRec [r.sec, r.fld, pvalStr r.value]
        = Except.ok (⟨naConvert r.sec, naConvert r.fld,
            naConvert (pvalStr r.value)⟩ : NRec) from rfl]
    rw [show (Except.ok (⟨naConvert r.sec, naConvert r.fld,
            naConvert (pvalStr r.value)⟩ : NRec)
          : Except String NRec) >>= (fun b =>
            (rs.map (fun x => [x.sec, x.fld, pvalStr x.value])).mapM rowToRec >>= fun bs =>
              pure (b :: bs))
        = ((rs.map (fun x => [x.sec, x.fld, pvalStr x.value])).mapM rowToRec >>= fun bs =>
            pure ((⟨naConvert r.sec, naConvert r.fld,
              naConvert (pvalStr r.value)⟩ : NRec) :: bs)) from rfl]
    rw [ih]
    rfl

theorem read_save_csv_encode (m : Model) :
    read_save_csv (encode m) = Except.ok ((build_save_df m).map toNRec) := by
  unfold encode to_csv read_save_csv
  rw [parseCsv_writeCsv _ ?rowsne]
  case rowsne =>
    rintro row hrow
    rcases List.mem_cons.mp hrow with rfl | hm
    · simp
    · obtain ⟨r, -, rfl⟩ := List.mem_map.mp hm
      simp
  show (if (["Section", "Field", "Value"] : List String) = ["Section", "Field", "Value"] then
      ((build_save_df m).map (fun r => [r.sec, r.fld, pvalStr r.value])).mapM rowToRec
    else Except.error "header") = Except.ok ((build_save_df m).map toNRec)
  rw [if_pos rfl]
  exact mapM_rowToRec (build_save_df m)

/-- A model the snapshot encoding represents exactly and whose parameters
the widgets accept back: decimal numbers in the widget ranges, an integral
bottle size, and table text free of characters the nested encoding would
alter.  The title is unconstrained. -/
def CleanModelP (m : Model) : Prop :=
  CleanQ m.vol_batch = true ∧ CleanQ m.loss_pct = true ∧
  CleanQ m.energy_cost = true ∧ CleanQ m.lab_hours = true ∧
  CleanQ m.lab_rate = true ∧ CleanQ m.flete = true ∧ CleanQ m.ind_pct = true ∧
  m.bottle_ml.den = 1 ∧
  (1 ≤ m.vol_batch ∧ m.vol_batch ≤ 2000) ∧
  (250 ≤ m.bottle_ml ∧ m.bottle_ml ≤ 1000) ∧
  (0 ≤ m.loss_pct ∧ m.loss_pct ≤ 25) ∧
  (0 ≤ m.energy_cost ∧ m.energy_cost ≤ 10000) ∧
  (0 ≤ m.lab_hours ∧ m.lab_hours ≤ 40) ∧
  (0 ≤ m.lab_rate ∧ m.lab_rate ≤ 10000) ∧
  (0 ≤ m.flete ∧ m.flete ≤ 20000) ∧
  (0 ≤ m.ind_pct ∧ m.ind_pct ≤ 30) ∧
  CleanTable (m.ing.map lineRowToJRow) = true ∧
  CleanTable (m.pack.map packRowToJRow) = true ∧
  CleanTable (m.aux.map lineRowToJRow) = true

instance (m : Model) : Decidable (CleanModelP m) := by
  unfold CleanModelP
  infer_instance

theorem numInput_in_range {lo hi v : ℚ} (h1 : lo ≤ v) (h2 : v ≤ hi) :
    numInput lo hi v = some v := by
  unfold numInput
  rw [if_pos ⟨h1, h2⟩]

/-- What comes back as the title: an NA-token title has become NaN in
`read_csv` and renders as the text `nan` in the widget default; any other
title survives. -/
def titleDecode (t : String) : String := if t ∈ naTokens then "nan" else t

theorem getTitleN_paramsOfN (m : Model) :
    getTitleN (paramsOfN m) = titleDecode m.titulo := by
  show (match List.lookup (some "Titulo_lote") (paramsOfN m) with
    | none => "Lote 20 L"
    | some none => "nan"
    | some (some s) => s) = titleDecode m.titulo
  rw [show List.lookup (some "Titulo_lote") (paramsOfN m)
      = some (naConvert m.titulo) from rfl]
  unfold naConvert titleDecode
  by_cases hmem : m.titulo ∈ naTokens
  · rw [if_pos hmem, if_pos hmem]
  · rw [if_neg hmem, if_neg hmem]

theorem buildModelN_eval (m : Model) (h : CleanModelP m) :
    buildModelN (paramsOfN m) (tablesOfN m)
      = some { m with titulo := titleDecode m.titulo } := by
  obtain ⟨hcv, hcl, hce, hch, hcr, hcf, hcp, hbden, hrv, hrb, hrl, hre,
    hrh, hrr, hrf, hrp, hti, htp, hta⟩ := h
  have hvol : getParamCheckedN (paramsOfN m) "Volumen_L" 20 1 2000 = some m.vol_batch := by
    unfold getParamCheckedN
    rw [show getParamQN (paramsOfN m) "Volumen_L" 20
        = parseFloatStr (String.mk (renderQ m.vol_batch)) from rfl]
    rw [parseFloatStr_renderQ hcv]
    exact numInput_in_range hrv.1 hrv.2
  have hloss : getParamCheckedN (paramsOfN m) "Merma_pct" 8 0 25 = some m.loss_pct := by
    unfold getParamCheckedN
    rw [show getParamQN (paramsOfN m) "Merma_pct" 8
        = parseFloatStr (String.mk (renderQ m.loss_pct)) from rfl]
    rw [parseFloatStr_renderQ hcl]
    exact numInput_in_range hrl.1 hrl.2
  have hen : getParamCheckedN (paramsOfN m) "Energia" 300 0 10000 = some m.energy_cost := by
    unfold getParamCheckedN
    rw [show getParamQN (paramsOfN m) "Energia" 300
        = parseFloatStr (String.mk (renderQ m.energy_cost)) from rfl]
    rw [parseFloatStr_renderQ hce]
    exact numInput_in_range hre.1 hre.2
  have hho : getParamCheckedN (paramsOfN m) "Horas" 6 0 40 = some m.lab_hours := by
    unfold getParamCheckedN
    rw [show getParamQN (paramsOfN m) "Horas" 6
        = parseFloatStr (String.mk (renderQ m.lab_hours)) from rfl]
    rw [parseFloatStr_renderQ hch]
    exact numInput_in_range hrh.1 hrh.2
  have hra : getParamCheckedN (paramsOfN m) "Costo_hora" 4000 0 10000 = some m.lab_rate := by
    unfold getParamCheckedN
    rw [show getParamQN (paramsOfN m) "Costo_hora" 4000
        = parseFloatStr (String.mk (renderQ m.lab_rate)) from rfl]
    rw [parseFloatStr_renderQ hcr]
    exact numInput_in_range hrr.1 hrr.2
  have hfl : getParamCheckedN (paramsOfN m) "Flete" 1000 0 20000 = some m.flete := by
    unfold getParamCheckedN
    rw [show getParamQN (paramsOfN m) "Flete" 1000
        = parseFloatStr (String.mk (renderQ m.flete)) from rfl]
    rw [parseFloatStr_renderQ hcf]
    exact numInput_in_range hrf.1 hrf.2
  have hpc : getParamCheckedN (paramsOfN m) "Overhead_pct" 10 0 30 = some m.ind_pct := by
    unfold getParamCheckedN
    rw [show getParamQN (paramsOfN m) "Overhead_pct" 10
        = parseFloatStr (String.mk (renderQ m.ind_pct)) from rfl]
    rw [parseFloatStr_renderQ hcp]
    exact numInput_in_range hrp.1 hrp.2
  have hbot : getBottleN (paramsOfN m) = some m.bottle_ml.num := by
    unfold getBottleN
    rw [show getParamQN (paramsOfN m) "Bottle_ml" 330
        = parseFloatStr (String.mk (renderQ m.bottle_ml)) from rfl]
    rw [parseFloatStr_renderQ (CleanQ_of_den_one hbden)]
    rw [Option.some_bind, pyint_den_one hbden]
    unfold numInputI
    have hq : (m.bottle_ml.num : ℚ) = m.bottle_ml :=
      Rat.coe_int_num_of_den_eq_one hbden
    have hb1 : (250 : ℤ) ≤ m.bottle_ml.num := by
      have := hrb.1
      rw [← hq] at this
      exact_mod_cast this
    have hb2 : m.bottle_ml.num ≤ 1000 := by
      have := hrb.2
      rw [← hq] at this
      exact_mod_cast this
    rw [if_pos ⟨hb1, hb2⟩]
  have hing : (List.lookup (some "Ingredientes") (tablesOfN m)).elim
      (some default_ingredients) tableToLines = some m.ing := by
    rw [show List.lookup (some "Ingredientes") (tablesOfN m)
        = some (m.ing.map lineRowToJRow) from rfl]
    rw [show (some (m.ing.map lineRowToJRow)).elim
        (some default_ingredients) tableToLines
        = tableToLines (m.ing.map lineRowToJRow) from rfl]
    exact tableToLines_map m.ing
  have hpack : (List.lookup (some "Packaging") (tablesOfN m)).elim
      (some default_packaging) tableToPacks = some m.pack := by
    rw [show List.lookup (some "Packaging") (tablesOfN m)
        = some (m.pack.map packRowToJRow) from rfl]
    rw [show (some (m.pack.map packRowToJRow)).elim
        (some default_packaging) tableToPacks
        = tableToPacks (m.pack.map packRowToJRow) from rfl]
    exact tableToPacks_map m.pack
  have haux : (List.lookup (some "Auxiliares") (tablesOfN m)).elim
      (some default_aux) tableToLines = some m.aux := by
    rw [show List.lookup (some "Auxiliares") (tablesOfN m)
        = some (m.aux.map lineRowToJRow) from rfl]
    rw [show (some (m.aux.map lineRowToJRow)).elim
        (some default_aux) tableToLines
        = tableToLines (m.aux.map lineRowToJRow) from rfl]
    exact tableToLines_map m.aux
  rw [buildModelN, hvol, hbot, hloss, hen, hho, hra, hfl, hpc, hing, hpack, haux]
  simp only [Option.bind_eq_bind, Option.some_bind]
  rw [getTitleN_paramsOfN m]
  rw [Rat.coe_int_num_of_den_eq_one hbden]
  rfl

/-- Decoding an encoded snapshot reconstructs everything except that the
title passes through `read_csv`'s NA conversion. -/
theorem loadModel_encode (m : Model) (h : CleanModelP m) :
    loadModel (encode m) = some { m with titulo := titleDecode m.titulo } := by
  obtain ⟨-, -, -, -, -, -, -, -, -, -, -, -, -, -, -, -, hti, htp, hta⟩ := id h
  have hread := read_save_csv_encode m
  have hload := load_save_dfN_build m hti htp hta
  unfold loadModel
  rw [hread]
  show (match load_save_dfN ((build_save_df m).map toNRec) with
    | Except.error _ => none
    | Except.ok pt => buildModelN pt.1 pt.2)
    = some { m with titulo := titleDecode m.titulo }
  rw [hload]
  show buildModelN (paramsOfN m) (tablesOfN m)
    = some { m with titulo := titleDecode m.titulo }
  exact buildModelN_eval m h

/-- A state identical to `witnessModel` below except that its title is the
text `NA`: a legitimate text title with in-range finite parameters, but one
of the cell texts `read_csv` converts to NaN. -/
def naModel : Model :=
  ⟨"NA", 20, 330, 8, 300, 6, 4000, 1000, 10,
   [⟨"Agua", 25, "L", 2⟩], [⟨"Botella", 61, 80⟩], [⟨"Gas", 1, "kg", 700⟩]⟩

/-- What the decode actually returns for `naModel`: the title has become
the text `nan`. -/
def nanModel : Model := { naModel with titulo := "nan" }

/-- C2 counterexample: a model whose parameters are finite in-range numbers
and whose tables are cleanly representable, with the text title `NA`, does
not round trip — `read_csv` turns the title cell into NaN, the widget
default renders it as `nan`, and the decoded state differs from the saved
one. -/
theorem c2_counterexample :
    CleanModelP naModel ∧
      loadModel (encode naModel) = some nanModel ∧
      loadModel (encode naModel) ≠ some naModel := by
  have h1 : CleanModelP naModel := by decide
  have h2 : loadModel (encode naModel) = some nanModel := by
    rw [loadModel_encode naModel h1]
    decide
  refine ⟨h1, h2, ?_⟩
  rw [h2]
  decide

/-- C2 (amended): decoding an encoded snapshot — the CSV written by
`to_csv` over `build_save_df`, read back by `read_csv` (including its
default NA conversion) and `load_save_df`, and fed through the widget
layer — reconstructs the model exactly, provided the title is not one of
the texts `read_csv` converts to NaN (the empty string, `NA`, `NaN`,
`null`, `None` and the other default NA tokens): every parameter comes back
equal and every table has the same rows in the same order. -/
theorem c2_round_trip_amended (m : Model) (h : CleanModelP m)
    (ht : m.titulo ∉ naTokens) :
    loadModel (encode m) = some m := by
  rw [loadModel_encode m h]
  rw [show titleDecode m.titulo = m.titulo from by
    unfold titleDecode
    rw [if_neg ht]]

/-- A small concrete state with exactly representable (integral) values. -/
def witnessModel : Model :=
  ⟨"Lote test", 20, 330, 8, 300, 6, 4000, 1000, 10,
   [⟨"Agua", 25, "L", 2⟩], [⟨"Botella", 61, 80⟩], [⟨"Gas", 1, "kg", 700⟩]⟩

/-- Witness for the amended C2 at a concrete state. -/
theorem c2_round_trip_amended_witness :
    loadModel (encode witnessModel) = some witnessModel :=
  c2_round_trip_amended witnessModel (by decide) (by decide)

/-- When the key is present its value must coerce to a number in the
widget's range; an absent key is fine (the default applies). -/
def paramNumOK (p : List (String × String)) (name : String) (lo hi : ℚ) : Bool :=
  match List.lookup name p with
  | none => true
  | some s =>
    match parseFloatStr s with
    | some q => decide (lo ≤ q ∧ q ≤ hi)
    | none => false

/-- The bottle parameter, checked at the integer widget's range. -/
def paramBottleOK (p : List (String × String)) : Bool :=
  match List.lookup "Bottle_ml" p with
  | none => true
  | some s =>
    match parseFloatStr s with
    | some q => decide (250 ≤ pyint q ∧ pyint q ≤ 1000)
    | none => false

/-- When the section is present its rows must convert to line items. -/
def tableLinesOK (t : List (String × List JRow)) (name : String) : Bool :=
  match List.lookup name t with
  | none => true
  | some tb => (tableToLines tb).isSome

/-- When the packaging section is present its rows must convert. -/
def tablePacksOK (t : List (String × List JRow)) : Bool :=
  match List.lookup "Packaging" t with
  | none => true
  | some tb => (tableToPacks tb).isSome

/-- A well-formed decoded snapshot: every key and section it does carry is
usable; anything absent falls back to a default. -/
def SnapshotOKP (p : List (String × String)) (t : List (String × List JRow)) : Prop :=
  paramNumOK p "Volumen_L" 1 2000 = true ∧
  paramBottleOK p = true ∧
  paramNumOK p "Merma_pct" 0 25 = true ∧
  paramNumOK p "Energia" 0 10000 = true ∧
  paramNumOK p "Horas" 0 40 = true ∧
  paramNumOK p "Costo_hora" 0 10000 = true ∧
  paramNumOK p "Flete" 0 20000 = true ∧
  paramNumOK p "Overhead_pct" 0 30 = true ∧
  tableLinesOK t "Ingredientes" = true ∧
  tablePacksOK t = true ∧
  tableLinesOK t "Auxiliares" = true

instance (p : List (String × String)) (t : List (String × List JRow)) :
    Decidable (SnapshotOKP p t) := by
  unfold SnapshotOKP
  infer_instance

theorem getParamChecked_of_ok (p : List (String × String)) (name : String)
    (lo hi deflt : ℚ) (hok : paramNumOK p name lo hi = true)
    (hd1 : lo ≤ deflt) (hd2 : deflt ≤ hi) :
    ∃ v, getParamChecked p name deflt lo hi = some v ∧
      (List.lookup name p = none → v = deflt) := by
  unfold paramNumOK at hok
  unfold getParamChecked getParamQ
  cases hl : List.lookup name p with
  | none =>
    refine ⟨deflt, ?_, fun _ => rfl⟩
    show numInput lo hi deflt = some deflt
    exact numInput_in_range hd1 hd2
  | some s =>
    rw [hl] at hok
    have hok2 : (match parseFloatStr s with
        | some q => decide (lo ≤ q ∧ q ≤ hi)
        | none => false) = true := hok
    cases hq : parseFloatStr s with
    | none =>
      rw [hq] at hok2
      simp at hok2
    | some q =>
      rw [hq] at hok2
      have hr := of_decide_eq_true hok2
      refine ⟨q, ?_, fun hc => absurd hc (by simp)⟩
      show (parseFloatStr s).bind (numInput lo hi) = some q
      rw [hq]
      show numInput lo hi q = some q
      exact numInput_in_range hr.1 hr.2

theorem getBottle_of_ok {p : List (String × String)} (hok : paramBottleOK p = true) :
    ∃ v : ℤ, getBottle p = some v ∧ (List.lookup "Bottle_ml" p = none → v = 330) := by
  unfold paramBottleOK at hok
  unfold getBottle getParamQ
  cases hl : List.lookup "Bottle_ml" p with
  | none =>
    refine ⟨330, ?_, fun _ => rfl⟩
    show numInputI 250 1000 (pyint 330) = some 330
    decide
  | some s =>
    rw [hl] at hok
    have hok2 : (match parseFloatStr s with
        | some q => decide (250 ≤ pyint q ∧ pyint q ≤ 1000)
        | none => false) = true := hok
    cases hq : parseFloatStr s with
    | none =>
      rw [hq] at hok2
      simp at hok2
    | some q =>
      rw [hq] at hok2
      have hr := of_decide_eq_true hok2
      refine ⟨pyint q, ?_, fun hc => absurd hc (by simp)⟩
      show (parseFloatStr s).bind (fun b0 => numInputI 250 1000 (pyint b0)) = some (pyint q)
      rw [hq]
      show numInputI 250 1000 (pyint q) = some (pyint q)
      unfold numInputI
      rw [if_pos hr]

theorem tableLines_of_ok {t : List (String × List JRow)} {name : String}
    (dflt : List LineRow) (hok : tableLinesOK t name = true) :
    ∃ l, (List.lookup name t).elim (some dflt) tableToLines = some l ∧
      (List.lookup name t = none → l = dflt) := by
  unfold tableLinesOK at hok
  cases hl : List.lookup name t with
  | none =>
    exact ⟨dflt, rfl, fun _ => rfl⟩
  | some tb =>
    rw [hl] at hok
    have hok2 : (tableToLines tb).isSome = true := hok
    obtain ⟨l, hsome⟩ := Option.isSome_iff_exists.mp hok2
    exact ⟨l, hsome, fun hc => absurd hc (by simp)⟩

theorem tablePacks_of_ok {t : List (String × List JRow)}
    (dflt : List PackRow) (hok : tablePacksOK t = true) :
    ∃ l, (List.lookup "Packaging" t).elim (some dflt) tableToPacks = some l ∧
      (List.lookup "Packaging" t = none → l = dflt) := by
  unfold tablePacksOK at hok
  cases hl : List.lookup "Packaging" t with
  | none =>
    exact ⟨dflt, rfl, fun _ => rfl⟩
  | some tb =>
    rw [hl] at hok
    have hok2 : (tableToPacks tb).isSome = true := hok
    obtain ⟨l, hsome⟩ := Option.isSome_iff_exists.mp hok2
    exact ⟨l, hsome, fun hc => absurd hc (by simp)⟩

/-- C6: a well-formed snapshot missing PARAM keys or table sections decodes
into a model, each absent key taking its documented default and each absent
section its built-in default table. -/
theorem c6_missing_defaults (p : List (String × String))
    (t : List (String × List JRow)) (hok : SnapshotOKP p t) :
    (∃ m, buildModel p t = some m) ∧
    (List.lookup "Titulo_lote" p = none →
      (buildModel p t).map Model.titulo = some "Lote 20 L") ∧
    (List.lookup "Volumen_L" p = none →
      (buildModel p t).map Model.vol_batch = some 20) ∧
    (List.lookup "Bottle_ml" p = none →
      (buildModel p t).map Model.bottle_ml = some 330) ∧
    (List.lookup "Merma_pct" p = none →
      (buildModel p t).map Model.loss_pct = some 8) ∧
    (List.lookup "Energia" p = none →
      (buildModel p t).map Model.energy_cost = some 300) ∧
    (List.lookup "Horas" p = none →
      (buildModel p t).map Model.lab_hours = some 6) ∧
    (List.lookup "Costo_hora" p = none →
      (buildModel p t).map Model.lab_rate = some 4000) ∧
    (List.lookup "Flete" p = none →
      (buildModel p t).map Model.flete = some 1000) ∧
    (List.lookup "Overhead_pct" p = none →
      (buildModel p t).map Model.ind_pct = some 10) ∧
    (List.lookup "Ingredientes" t = none →
      (buildModel p t).map Model.ing = some default_ingredients) ∧
    (List.lookup "Packaging" t = none →
      (buildModel p t).map Model.pack = some default_packaging) ∧
    (List.lookup "Auxiliares" t = none →
      (buildModel p t).map Model.aux = some default_aux) := by
  obtain ⟨h1, h2, h3, h4, h5, h6, h7, h8, h9, h10, h11⟩ := hok
  obtain ⟨vol, hvol, hvolD⟩ :=
    getParamChecked_of_ok p "Volumen_L" 1 2000 20 h1 (by norm_num) (by norm_num)
  obtain ⟨bot, hbot, hbotD⟩ := getBottle_of_ok h2
  obtain ⟨loss, hloss, hlossD⟩ :=
    getParamChecked_of_ok p "Merma_pct" 0 25 8 h3 (by norm_num) (by norm_num)
  obtain ⟨energy, hen, henD⟩ :=
    getParamChecked_of_ok p "Energia" 0 10000 300 h4 (by norm_num) (by norm_num)
  obtain ⟨hours, hho, hhoD⟩ :=
    getParamChecked_of_ok p "Horas" 0 40 6 h5 (by norm_num) (by norm_num)
  obtain ⟨rate, hra, hraD⟩ :=
    getParamChecked_of_ok p "Costo_hora" 0 10000 4000 h6 (by norm_num) (by norm_num)
  obtain ⟨fl, hfl, hflD⟩ :=
    getParamChecked_of_ok p "Flete" 0 20000 1000 h7 (by norm_num) (by norm_num)
  obtain ⟨pct, hpc, hpcD⟩ :=
    getParamChecked_of_ok p "Overhead_pct" 0 30 10 h8 (by norm_num) (by norm_num)
  obtain ⟨ing, hing, hingD⟩ := tableLines_of_ok default_ingredients h9
  obtain ⟨pack, hpack, hpackD⟩ := tablePacks_of_ok default_packaging h10
  obtain ⟨aux, haux, hauxD⟩ := tableLines_of_ok default_aux h11
  have hbuild : buildModel p t = some
      ⟨(List.lookup "Titulo_lote" p).getD "Lote 20 L", vol, (bot : ℚ), loss,
       energy, hours, rate, fl, pct, ing, pack, aux⟩ := by
    rw [buildModel, hvol, hbot, hloss, hen, hho, hra, hfl, hpc, hing, hpack, haux]
    simp only [Option.bind_eq_bind, Option.some_bind]
    rfl
  refine ⟨⟨_, hbuild⟩, ?_, ?_, ?_, ?_, ?_, ?_, ?_, ?_, ?_, ?_, ?_, ?_⟩
  · intro hnone
    rw [hbuild]
    simp only [Option.map_some']
    rw [hnone]
    rfl
  · intro hnone
    rw [hbuild, hvolD hnone]
    rfl
  · intro hnone
    rw [hbuild, hbotD hnone]
    simp only [Option.map_some']
    norm_num
  · intro hnone
    rw [hbuild, hlossD hnone]
    rfl
  · intro hnone
    rw [hbuild, henD hnone]
    rfl
  · intro hnone
    rw [hbuild, hhoD hnone]
    rfl
  · intro hnone
    rw [hbuild, hraD hnone]
    rfl
  · intro hnone
    rw [hbuild, hflD hnone]
    rfl
  · intro hnone
    rw [hbuild, hpcD hnone]
    rfl
  · intro hnone
    rw [hbuild, hingD hnone]
    rfl
  · intro hnone
    rw [hbuild, hpackD hnone]
    rfl
  · intro hnone
    rw [hbuild, hauxD hnone]
    rfl

/-- The concrete snapshot of the claim: only a `Packaging` section. -/
def witnessPackTable : List JRow :=
  [[("Descripción", .s "B"), ("Unidades", .n 61), ("Costo unitario (ARS $)", .n 80)]]

/-- Witness for C6: a snapshot with no PARAM rows and only a `Packaging`
section decodes with every default applied. -/
theorem c6_missing_defaults_witness :
    (∃ m, buildModel [] [("Packaging", witnessPackTable)] = some m) ∧
    (List.lookup "Titulo_lote" ([] : List (String × String)) = none →
      (buildModel [] [("Packaging", witnessPackTable)]).map Model.titulo
        = some "Lote 20 L") ∧
    (List.lookup "Volumen_L" ([] : List (String × String)) = none →
      (buildModel [] [("Packaging", witnessPackTable)]).map Model.vol_batch = some 20) ∧
    (List.lookup "Bottle_ml" ([] : List (String × String)) = none →
      (buildModel [] [("Packaging", witnessPackTable)]).map Model.bottle_ml = some 330) ∧
    (List.lookup "Merma_pct" ([] : List (String × String)) = none →
      (buildModel [] [("Packaging", witnessPackTable)]).map Model.loss_pct = some 8) ∧
    (List.lookup "Energia" ([] : List (String × String)) = none →
      (buildModel [] [("Packaging", witnessPackTable)]).map Model.energy_cost = some 300) ∧
    (List.lookup "Horas" ([] : List (String × String)) = none →
      (buildModel [] [("Packaging", witnessPackTable)]).map Model.lab_hours = some 6) ∧
    (List.lookup "Costo_hora" ([] : List (String × String)) = none →
      (buildModel [] [("Packaging", witnessPackTable)]).map Model.lab_rate = some 4000) ∧
    (List.lookup "Flete" ([] : List (String × String)) = none →
      (buildModel [] [("Packaging", witnessPackTable)]).map Model.flete = some 1000) ∧
    (List.lookup "Overhead_pct" ([] : List (String × String)) = none →
      (buildModel [] [("Packaging", witnessPackTable)]).map Model.ind_pct = some 10) ∧
    (List.lookup "Ingredientes" [("Packaging", witnessPackTable)] = none →
      (buildModel [] [("Packaging", witnessPackTable)]).map Model.ing
        = some default_ingredients) ∧
    (List.lookup "Packaging" [("Packaging", witnessPackTable)] = none →
      (buildModel [] [("Packaging", witnessPackTable)]).map Model.pack
        = some default_packaging) ∧
    (List.lookup "Auxiliares" [("Packaging", witnessPackTable)] = none →
      (buildModel [] [("Packaging", witnessPackTable)]).map Model.aux
        = some default_aux) :=
  c6_missing_defaults [] [("Packaging", witnessPackTable)] (by decide)

end Costos
